import Mathlib

/-!
Verification of the receipt-scanner pipeline (shallow embedding).

Each definition below is translated from the repository's Python source:
`src/storage/duplicate_detector.py`, `src/storage/cache_manager.py`,
`src/processing/validation.py`, `src/processing/data_extractor.py` and
`src/processing/ocr_engine.py`.  Python `Decimal` values are modelled as a
mantissa/exponent pair (exact), Python `float` scores as `ℚ` (the scores in
this code are small dyadic/decimal constants, so rational arithmetic agrees
with the comparisons performed), and wall-clock values (`datetime.now()`,
`date.today()`) are passed in as explicit parameters.
-/

namespace RS

/-! ## Duplicate detector: perceptual-hash similarity
    (src/storage/duplicate_detector.py) -/

namespace Dup

/-- Number of `1` bits of a natural number; this is what
`bin(xor).count('1')` computes in `calculate_hash_similarity`. -/
def popCount (n : ℕ) : ℕ :=
  if h : n = 0 then 0
  else popCount (n / 2) + n % 2
decreasing_by exact Nat.div_lt_self (Nat.pos_of_ne_zero h) (by norm_num)

/-- `int(binary_string, 2)` for a most-significant-bit-first list of bits:
the integer encoded by the flattened boolean matrix in
`_binary_array_to_hex` (the hex round trip `int(hex(n)[2:], 16) = n`
preserves this integer, so fingerprints are modelled by it). -/
def natOfBits (bs : List Bool) : ℕ :=
  bs.foldl (fun a b => 2 * a + (if b then 1 else 0)) 0

/-- `calculate_hash_similarity` from `duplicate_detector.py`: Hamming
distance of the two fingerprints divided by the fixed 64-bit width, turned
into a similarity and clamped to `[0, 1]`. -/
def calculateHashSimilarity (hash1 hash2 : ℕ) : ℚ :=
  let xor := hash1 ^^^ hash2
  let hammingDistance : ℕ := popCount xor
  let maxDistance : ℚ := 64
  let similarity : ℚ := 1 - (hammingDistance : ℚ) / maxDistance
  max 0 (min 1 similarity)

theorem popCount_zero : popCount 0 = 0 := by
  unfold popCount; simp

theorem popCount_bit (b : Bool) (n : ℕ) :
    popCount (Nat.bit b n) = popCount n + b.toNat := by
  by_cases h : Nat.bit b n = 0
  · rcases Nat.bit_eq_zero_iff.mp h with ⟨hn, hb⟩
    subst hn hb
    simp [popCount_zero]
  · rw [popCount, dif_neg h, Nat.bit_div_two, Nat.bit_mod_two]

theorem natOfBits_append_bit (bs : List Bool) (b : Bool) :
    natOfBits (bs ++ [b]) = Nat.bit b (natOfBits bs) := by
  cases b <;> simp [natOfBits, List.foldl_append, Nat.bit_val]

/-- Count of positions where two equal-length bit lists disagree. -/
def hammingBits (a b : List Bool) : ℕ :=
  (List.zipWith bne a b).count true

theorem popCount_natOfBits_xor (n : ℕ) :
    ∀ a b : List Bool, a.length = n → b.length = n →
      popCount (natOfBits a ^^^ natOfBits b) = hammingBits a b := by
  induction n with
  | zero =>
    intro a b ha hb
    rw [List.length_eq_zero] at ha hb
    subst ha; subst hb
    rw [show natOfBits [] = 0 from rfl, Nat.xor_self]
    exact popCount_zero
  | succ n ih =>
    intro a b ha hb
    rcases List.eq_nil_or_concat a with rfl | ⟨as, x, rfl⟩
    · exact absurd ha (by simp)
    rcases List.eq_nil_or_concat b with rfl | ⟨bs, y, rfl⟩
    · exact absurd hb (by simp)
    simp only [List.concat_eq_append] at ha hb ⊢
    rw [List.length_append] at ha hb
    simp only [List.length_cons, List.length_nil] at ha hb
    have has : as.length = n := by omega
    have hbs : bs.length = n := by omega
    rw [natOfBits_append_bit, natOfBits_append_bit, Nat.xor_bit, popCount_bit,
      ih as bs has hbs]
    have hzip : List.zipWith bne (as ++ [x]) (bs ++ [y]) =
        List.zipWith bne as bs ++ [bne x y] := by
      rw [List.zipWith_append _ _ _ _ _ (has.trans hbs.symm)]
      rfl
    simp [hammingBits, hzip, List.count_append, List.count_singleton]
    cases x <;> cases y <;> rfl

theorem hammingBits_le (a b : List Bool) :
    hammingBits a b ≤ a.length := by
  calc hammingBits a b ≤ (List.zipWith bne a b).length := List.count_le_length _ _
  _ ≤ a.length := by rw [List.length_zipWith]; omega

/-- `DuplicateMatch` from `duplicate_detector.py` (the two metadata dicts
are carried through unused by the functions verified here and are
omitted). -/
structure DuplicateMatch where
  fileId1 : String
  fileId2 : String
  similarityScore : ℚ
  method : String
deriving DecidableEq

/-- Append an element to an insertion-ordered duplicate-free list unless it
is already present; this models membership in a Python `set` (the group
computations below only ever depend on membership). -/
def insertNew (x : String) (xs : List String) : List String :=
  if x ∈ xs then xs else xs ++ [x]

/-- Neighbour list of `node` in the adjacency map (`graph.get(node, [])`). -/
def neighbors (graph : List (String × List String)) (node : String) : List String :=
  ((graph.find? (fun p => p.1 = node)).map Prod.snd).getD []

/-- Add `v` to `u`'s adjacency list, creating the entry if needed
(`graph[u].add(v)` after the `if u not in graph` guard). -/
def addNeighbor (graph : List (String × List String)) (u v : String) :
    List (String × List String) :=
  match graph with
  | [] => [(u, [v])]
  | (k, ns) :: rest =>
    if k = u then (k, insertNew v ns) :: rest
    else (k, ns) :: addNeighbor rest u v

/-- The adjacency-map / all-files construction at the top of
`get_duplicate_groups`. -/
def buildGraph (ms : List DuplicateMatch) :
    List (String × List String) × List String :=
  ms.foldl
    (fun (acc : List (String × List String) × List String) m =>
      let graph := addNeighbor (addNeighbor acc.1 m.fileId1 m.fileId2) m.fileId2 m.fileId1
      (graph, insertNew m.fileId2 (insertNew m.fileId1 acc.2)))
    ([], [])

/-- The recursive `dfs(node, current_group)` helper inside
`get_duplicate_groups`, with explicit fuel (the recursion visits at most
one new node per nesting level, so `allFiles.length + 1` fuel always
suffices to replay it exactly). -/
def dfs (graph : List (String × List String)) :
    ℕ → String → List String → List String → List String × List String
  | 0, _, visited, group => (visited, group)
  | fuel + 1, node, visited, group =>
    if node ∈ visited then (visited, group)
    else
      (neighbors graph node).foldl
        (fun (vg : List String × List String) nb => dfs graph fuel nb vg.1 vg.2)
        (visited ++ [node], group ++ [node])

/-- One step of the outer loop of `get_duplicate_groups`: start a DFS at
any not-yet-visited file and keep the resulting component when it has more
than one member. -/
def groupStep (graph : List (String × List String)) (fuel : ℕ)
    (acc : List String × List (List String)) (fileId : String) :
    List String × List (List String) :=
  if fileId ∈ acc.1 then acc
  else
    let vg := dfs graph fuel fileId acc.1 []
    if 1 < vg.2.length then (vg.1, acc.2 ++ [vg.2]) else (vg.1, acc.2)

/-- `get_duplicate_groups` from `duplicate_detector.py`. -/
def getDuplicateGroups (ms : List DuplicateMatch) : List (List String) :=
  let ga := buildGraph ms
  (ga.2.foldl (groupStep ga.1 (ga.2.length + 1)) ([], [])).2

theorem groupStep_big (graph : List (String × List String)) (fuel : ℕ) :
    ∀ (files : List String) (acc : List String × List (List String)),
      (∀ g ∈ acc.2, 1 < g.length) →
      ∀ g ∈ (files.foldl (groupStep graph fuel) acc).2, 1 < g.length := by
  intro files
  induction files with
  | nil => intro acc hacc; simpa using hacc
  | cons f rest ih =>
    intro acc hacc
    refine ih (groupStep graph fuel acc f) ?_
    intro g hg
    simp only [groupStep] at hg
    split at hg
    · exact hacc g hg
    · split at hg
      · simp only [List.mem_append, List.mem_singleton] at hg
        rcases hg with hg | rfl
        · exact hacc g hg
        · assumption
      · exact hacc g hg

/-- `find_duplicates_in_batch` input: one file of the batch.  `phash` is
the outcome of `calculate_image_hash` for the file at `cachePath`
(`none` both when the path does not exist and when hashing fails, the two
skip conditions of the first loop). -/
structure BatchFile where
  fileId : String
  cachePath : String
  phash : Option ℕ

/-- The ordered `(i, j)` index pairs visited by the nested comparison
loops (`for i in range(n): for j in range(i+1, n)`). -/
def pairIdx (n : ℕ) : List (ℕ × ℕ) :=
  (List.range n).flatMap fun i =>
    (List.range n).filterMap fun j => if i < j then some (i, j) else none

/-- The body of the pair-comparison loop in `find_duplicates_in_batch`. -/
def batchPairStep (structSim : String → String → ℚ) (threshold : ℚ)
    (fileHashes : List (String × ℕ × String))
    (acc : List DuplicateMatch) (ij : ℕ × ℕ) : List DuplicateMatch :=
  match fileHashes[ij.1]?, fileHashes[ij.2]? with
  | some f1, some f2 =>
    let similarity := calculateHashSimilarity f1.2.1 f2.2.1
    if threshold ≤ similarity then
      let structuralSim := structSim f1.2.2 f2.2.2
      let finalSimilarity := max similarity structuralSim
      if threshold ≤ finalSimilarity then
        acc ++ [⟨f1.1, f2.1, finalSimilarity, "phash+structural"⟩]
      else acc
    else acc
  | _, _ => acc

/-- The first loop of `find_duplicates_in_batch`: keep (in order) the
files that could be read and hashed. -/
def batchFileHashes (files : List BatchFile) : List (String × ℕ × String) :=
  files.filterMap fun f => f.phash.map fun h => (f.fileId, h, f.cachePath)

/-- `find_duplicates_in_batch` from `duplicate_detector.py`.  `structSim`
is the oracle for `compare_images_structural` on a pair of cache paths
(its image processing is outside the embedded fragment). -/
def findDuplicatesInBatch (structSim : String → String → ℚ) (threshold : ℚ)
    (files : List BatchFile) : List DuplicateMatch :=
  let fileHashes := batchFileHashes files
  (pairIdx fileHashes.length).foldl (batchPairStep structSim threshold fileHashes) []

theorem batchPairStep_extends (structSim : String → String → ℚ) (threshold : ℚ)
    (fh : List (String × ℕ × String)) (acc : List DuplicateMatch) (ij : ℕ × ℕ) :
    ∃ t, batchPairStep structSim threshold fh acc ij = acc ++ t := by
  unfold batchPairStep
  rcases fh[ij.1]? with _ | f1 <;> rcases fh[ij.2]? with _ | f2
  · exact ⟨[], by simp⟩
  · exact ⟨[], by simp⟩
  · exact ⟨[], by simp⟩
  · dsimp only
    split
    · split
      · exact ⟨_, rfl⟩
      · exact ⟨[], by simp⟩
    · exact ⟨[], by simp⟩

theorem foldl_batchPairStep_extends (structSim : String → String → ℚ)
    (threshold : ℚ) (fh : List (String × ℕ × String)) :
    ∀ (l : List (ℕ × ℕ)) (acc : List DuplicateMatch),
      ∃ t, l.foldl (batchPairStep structSim threshold fh) acc = acc ++ t := by
  intro l
  induction l with
  | nil => exact fun acc => ⟨[], by simp⟩
  | cons ij rest ih =>
    intro acc
    obtain ⟨t1, h1⟩ := batchPairStep_extends structSim threshold fh acc ij
    obtain ⟨t2, h2⟩ := ih (batchPairStep structSim threshold fh acc ij)
    exact ⟨t1 ++ t2, by rw [List.foldl_cons, h2, h1, List.append_assoc]⟩

theorem mem_pairIdx {i j n : ℕ} (hij : i < j) (hj : j < n) :
    (i, j) ∈ pairIdx n := by
  unfold pairIdx
  refine List.mem_flatMap.mpr ⟨i, List.mem_range.mpr (hij.trans hj), ?_⟩
  exact List.mem_filterMap.mpr ⟨j, List.mem_range.mpr hj, by simp [hij]⟩

end Dup

/-! ## Content cache (src/storage/cache_manager.py)

The cache index (`cache_index.json`) is a pair of string-keyed dicts plus
stats; dicts are modelled as insertion-ordered association lists with
unique keys.  The images directory is modelled by the list of paths
currently on disk.  `datetime.now()` values are `ℤ` parameters (ISO
strings compare chronologically), and the MD5 of `calculate_file_hash` is
an arbitrary function `hashFn` of the file bytes, so byte-identical files
always hash alike. -/

namespace Cache

/-- `d.get(k)` on a Python dict modelled as an assoc list. -/
def dlookup {α : Type} (m : List (String × α)) (k : String) : Option α :=
  (m.find? (fun p => p.1 = k)).map Prod.snd

/-- `d[k] = v` on a Python dict: replace in place, or append a new key. -/
def dinsert {α : Type} (m : List (String × α)) (k : String) (v : α) :
    List (String × α) :=
  match m with
  | [] => [(k, v)]
  | (k', v') :: rest => if k' = k then (k, v) :: rest else (k', v') :: dinsert rest k v

/-- `del d[k]` (a no-op when the key is absent, matching the guarded
deletes in the source). -/
def dremove {α : Type} (m : List (String × α)) (k : String) : List (String × α) :=
  m.filter (fun p => p.1 ≠ k)

/-- One value of `cache_index['files']`.  Alias ("duplicate") entries are
written without `cache_path`, `file_size` and `last_accessed`, hence the
`Option` fields. -/
structure CacheEntry where
  originalFileId : String
  cacheFileId : String
  isDuplicate : Bool
  contentHash : String
  cachedAt : ℤ
  metadataName : Option String
  cachePath : Option String
  fileSize : Option ℤ
  lastAccessed : Option ℤ
deriving DecidableEq

/-- The cache index plus the blob directory contents. -/
structure CacheState where
  files : List (String × CacheEntry)
  hashes : List (String × String)
  totalFiles : ℤ
  totalSize : ℤ
  disk : List String
deriving DecidableEq

/-- The empty index created by `_load_cache_index` when no file exists. -/
def emptyState : CacheState := ⟨[], [], 0, 0, []⟩

/-- `Path(name).suffix`: the extension (with the dot) of the last
component, empty for names like `a`, `.hidden` or `a.`. -/
def pathSuffix (name : String) : String :=
  let comp := name.toList.foldl (fun acc c => if c = '/' then [] else acc ++ [c]) []
  let n := comp.length
  match comp.reverse.findIdx? (fun c => c = '.') with
  | none => ""
  | some rj =>
    let i := n - 1 - rj
    if 0 < i ∧ i < n - 1 then ⟨comp.drop i⟩ else ""

/-- `get_cached_file_path` from `cache_manager.py`: images directory plus
`file_id` plus the lower-cased extension of the original name (defaulting
to `.jpg`). -/
def getCachedFilePath (fileId originalName : String) : String :=
  let extension := (pathSuffix originalName).toList.map Char.toLower
  let extension := if extension = [] then ".jpg".toList else extension
  "images/" ++ fileId ++ (⟨extension⟩ : String)

/-- `add_file_to_cache` from `cache_manager.py`.  `content` is the byte
content of `source_path`; `hashFn` stands for the MD5 in
`calculate_file_hash`; `now` is the `datetime.now()` timestamp. -/
def addFileToCache (hashFn : List ℕ → String) (st : CacheState) (fileId : String)
    (content : List ℕ) (metaName : Option String) (now : ℤ) : CacheState :=
  let fileHash := hashFn content
  match dlookup st.hashes fileHash with
  | some existingFileId =>
    let entry : CacheEntry :=
      { originalFileId := fileId, cacheFileId := existingFileId,
        isDuplicate := true, contentHash := fileHash, cachedAt := now,
        metadataName := metaName, cachePath := none, fileSize := none,
        lastAccessed := none }
    { st with files := dinsert st.files fileId entry }
  | none =>
    let originalName := metaName.getD (fileId ++ ".jpg")
    let cachePath := getCachedFilePath fileId originalName
    let fileSize : ℤ := content.length
    let entry : CacheEntry :=
      { originalFileId := fileId, cacheFileId := fileId, isDuplicate := false,
        contentHash := fileHash, cachedAt := now, metadataName := metaName,
        cachePath := some cachePath, fileSize := some fileSize,
        lastAccessed := some now }
    { files := dinsert st.files fileId entry,
      hashes := dinsert st.hashes fileHash fileId,
      totalFiles := st.totalFiles + 1,
      totalSize := st.totalSize + fileSize,
      disk := cachePath :: st.disk }

/-- `remove_file_from_cache` from `cache_manager.py`: for a non-alias
entry, unlink the blob, drop the content-hash index entry and adjust the
stats; in every case drop the file entry itself. -/
def removeFileFromCache (st : CacheState) (fileId : String) : CacheState :=
  match dlookup st.files fileId with
  | none => st
  | some cacheInfo =>
    if cacheInfo.isDuplicate then { st with files := dremove st.files fileId }
    else
      let p := cacheInfo.cachePath.getD ""
      { files := dremove st.files fileId,
        hashes := dremove st.hashes cacheInfo.contentHash,
        totalFiles := st.totalFiles - 1,
        totalSize := st.totalSize - cacheInfo.fileSize.getD 0,
        disk := st.disk.filter (fun q => q ≠ p) }

/-- `get_cached_file_path_by_id` from `cache_manager.py`.  Returns the
resolved path (or `None`) together with the updated state (last-accessed
bump on hit, self-healing removal on a missing blob). -/
def getCachedFilePathById (st : CacheState) (fileId : String) (now : ℤ) :
    Option String × CacheState :=
  match dlookup st.files fileId with
  | none => (none, st)
  | some cacheInfo =>
    let resolved : Option String :=
      if cacheInfo.isDuplicate then
        match dlookup st.files cacheInfo.cacheFileId with
        | some actualCacheInfo => some (actualCacheInfo.cachePath.getD "")
        | none => none
      else some (cacheInfo.cachePath.getD "")
    match resolved with
    | none => (none, st)
    | some cachePath =>
      if cachePath ∈ st.disk then
        let bumped := { cacheInfo with lastAccessed := some now }
        (some cachePath, { st with files := dinsert st.files fileId bumped })
      else
        (none, removeFileFromCache st fileId)

theorem dlookup_dinsert_self {α : Type} (m : List (String × α)) (k : String) (v : α) :
    dlookup (dinsert m k v) k = some v := by
  induction m with
  | nil => simp [dinsert, dlookup]
  | cons p rest ih =>
    obtain ⟨k', v'⟩ := p
    by_cases h : k' = k
    · subst h
      simp [dinsert, dlookup]
    · simp only [dinsert, if_neg h]
      simpa [dlookup, List.find?_cons, h] using ih

theorem dlookup_dinsert_ne {α : Type} (m : List (String × α)) (k k' : String) (v : α)
    (h : k' ≠ k) : dlookup (dinsert m k v) k' = dlookup m k' := by
  induction m with
  | nil => simp [dinsert, dlookup, List.find?, Ne.symm h]
  | cons p rest ih =>
    obtain ⟨k0, v0⟩ := p
    by_cases h0 : k0 = k
    · subst h0
      simp [dinsert, dlookup, List.find?, Ne.symm h]
    · simp only [dinsert, if_neg h0]
      by_cases h1 : k0 = k'
      · subst h1
        simp [dlookup, List.find?]
      · simp only [dlookup, List.find?] at ih ⊢
        simp only [show (decide (k0 = k') : Bool) = false from by simp [h1]]
        exact ih

theorem dinsert_fresh {α : Type} (m : List (String × α)) (k : String) (v : α)
    (h : dlookup m k = none) : dinsert m k v = m ++ [(k, v)] := by
  induction m with
  | nil => simp [dinsert]
  | cons p rest ih =>
    obtain ⟨k0, v0⟩ := p
    simp only [dlookup, List.find?] at h
    by_cases h0 : k0 = k
    · simp [h0] at h
    · simp only [show (decide (k0 = k) : Bool) = false from by simp [h0]] at h
      simp only [dinsert, if_neg h0, List.cons_append, List.cons.injEq, true_and]
      exact ih h

theorem dlookup_append {α : Type} (m1 m2 : List (String × α)) (k : String) :
    dlookup (m1 ++ m2) k = (dlookup m1 k).or (dlookup m2 k) := by
  induction m1 with
  | nil => simp [dlookup]
  | cons p rest ih =>
    obtain ⟨k0, v0⟩ := p
    by_cases h0 : k0 = k
    · subst h0
      simp [dlookup, List.find?]
    · simp only [dlookup, List.cons_append, List.find?,
        show (decide (k0 = k) : Bool) = false from by simp [h0]] at ih ⊢
      exact ih

/-- The `(last_accessed, file_id, file_size)` triples built by
`enforce_cache_size_limit` from the non-alias entries. -/
def eligibleItems (st : CacheState) : List (ℤ × String × ℤ) :=
  st.files.filterMap fun p =>
    if p.2.isDuplicate then none
    else some (p.2.lastAccessed.getD p.2.cachedAt, p.1, p.2.fileSize.getD 0)

/-- Lexicographic comparison of the sort-key triples (`file_items.sort()`
on `(timestamp, file_id, size)` tuples). -/
def itemLE (a b : ℤ × String × ℤ) : Bool :=
  a.1 < b.1 ∨ (a.1 = b.1 ∧ (a.2.1 < b.2.1 ∨ (a.2.1 = b.2.1 ∧ a.2.2 ≤ b.2.2)))

/-- The eviction loop of `enforce_cache_size_limit`: walk the sorted
items, stop as soon as the remaining size fits the budget, otherwise evict
the head and keep going. -/
def evictList (budget : ℤ) : ℤ → List (ℤ × String × ℤ) → List (ℤ × String × ℤ)
  | _, [] => []
  | cur, x :: xs => if cur ≤ budget then [] else x :: evictList budget (cur - x.2.2) xs

/-- `enforce_cache_size_limit` from `cache_manager.py` (`maxSizeBytes` is
`config.max_cache_size_mb * 1024 * 1024`).  Returns the new state together
with the list of evicted items. -/
def enforceCacheSizeLimit (st : CacheState) (maxSizeBytes : ℤ) :
    CacheState × List (ℤ × String × ℤ) :=
  let currentSize := st.totalSize
  if currentSize ≤ maxSizeBytes then (st, [])
  else
    let fileItems := (eligibleItems st).mergeSort itemLE
    let removed := evictList maxSizeBytes currentSize fileItems
    (removed.foldl (fun s x => removeFileFromCache s x.2.1) st, removed)

end Cache

end RS

/-- C7: for every fingerprint `h`, `calculate_hash_similarity(h, h)` returns
`1.0`; for any two fingerprints differing in `k` of their `N = 64` bits
(every fingerprint produced by the detector is an 8×8 bit matrix) it
returns `1 - k/64`; and the result is always clamped to `[0, 1]`. -/
theorem claim_C7_hash_similarity :
    (∀ h : ℕ, RS.Dup.calculateHashSimilarity h h = 1) ∧
    (∀ a b : List Bool, a.length = 64 → b.length = 64 →
      RS.Dup.calculateHashSimilarity (RS.Dup.natOfBits a) (RS.Dup.natOfBits b) =
        1 - (RS.Dup.hammingBits a b : ℚ) / 64) ∧
    (∀ h1 h2 : ℕ, 0 ≤ RS.Dup.calculateHashSimilarity h1 h2 ∧
      RS.Dup.calculateHashSimilarity h1 h2 ≤ 1) := by
  refine ⟨?_, ?_, ?_⟩
  · intro h
    simp [RS.Dup.calculateHashSimilarity, Nat.xor_self, RS.Dup.popCount_zero]
  · intro a b ha hb
    simp only [RS.Dup.calculateHashSimilarity]
    rw [RS.Dup.popCount_natOfBits_xor 64 a b ha hb]
    have hk : RS.Dup.hammingBits a b ≤ 64 := ha ▸ RS.Dup.hammingBits_le a b
    have h1 : (RS.Dup.hammingBits a b : ℚ) / 64 ≤ 1 := by
      rw [div_le_one (by norm_num)]
      exact_mod_cast hk
    have h0 : (0 : ℚ) ≤ (RS.Dup.hammingBits a b : ℚ) / 64 := by positivity
    rw [min_eq_right (by linarith), max_eq_right (by linarith)]
  · intro h1 h2
    simp only [RS.Dup.calculateHashSimilarity]
    constructor
    · exact le_max_left _ _
    · exact max_le (by norm_num) (min_le_left _ _)

/-- Witness for C7: a 64-bit fingerprint compared against one differing in
its last bit. -/
theorem claim_C7_hash_similarity_witness :
    RS.Dup.calculateHashSimilarity (RS.Dup.natOfBits (List.replicate 64 false))
      (RS.Dup.natOfBits (List.replicate 63 false ++ [true])) =
      1 - (RS.Dup.hammingBits (List.replicate 64 false)
        (List.replicate 63 false ++ [true]) : ℚ) / 64 :=
  claim_C7_hash_similarity.2.1 _ _ (by simp) (by simp)

/-- The match list `[(A,B,0.97), (B,C,0.96)]` of the first C8 example. -/
def c8Chain : List RS.Dup.DuplicateMatch :=
  [⟨"A", "B", 97/100, "phash+structural"⟩, ⟨"B", "C", 96/100, "phash+structural"⟩]

/-- The match list `[(A,B,0.97), (C,D,0.96)]` of the second C8 example. -/
def c8TwoPairs : List RS.Dup.DuplicateMatch :=
  [⟨"A", "B", 97/100, "phash+structural"⟩, ⟨"C", "D", 96/100, "phash+structural"⟩]

/-- C8: every group emitted by `get_duplicate_groups` has at least two
members, the matches `[(A,B),(B,C)]` yield the single group `{A,B,C}`, and
the matches `[(A,B),(C,D)]` yield exactly the groups `{A,B}` and `{C,D}`. -/
theorem claim_C8_duplicate_groups :
    (∀ ms : List RS.Dup.DuplicateMatch,
      ∀ g ∈ RS.Dup.getDuplicateGroups ms, 2 ≤ g.length) ∧
    (RS.Dup.getDuplicateGroups c8Chain).map List.toFinset =
      [({"A", "B", "C"} : Finset String)] ∧
    (RS.Dup.getDuplicateGroups c8TwoPairs).map List.toFinset =
      [({"A", "B"} : Finset String), ({"C", "D"} : Finset String)] := by
  refine ⟨?_, by decide, by decide⟩
  intro ms g hg
  exact RS.Dup.groupStep_big _ _ _ _ (by simp) g hg

/-- Witness for C8: the group computed on the first example really has at
least two members. -/
theorem claim_C8_duplicate_groups_witness :
    2 ≤ (["A", "B", "C"] : List String).length :=
  claim_C8_duplicate_groups.1 c8Chain ["A", "B", "C"] (by decide)

/-- C10: in `find_duplicates_in_batch`, every pair of hashed files whose
perceptual-hash similarity reaches the threshold is emitted as a
`DuplicateMatch`; its reported score is `max(hashSim, structuralSim)`,
which is never below the hash similarity, so the structural re-check can
only raise the score and never rejects such a pair. -/
theorem claim_C10_structural_recheck_never_rejects
    (structSim : String → String → ℚ) (threshold : ℚ)
    (files : List RS.Dup.BatchFile) (i j : ℕ) (f1 f2 : String × ℕ × String)
    (hi : (RS.Dup.batchFileHashes files)[i]? = some f1)
    (hj : (RS.Dup.batchFileHashes files)[j]? = some f2)
    (hij : i < j)
    (hgate : threshold ≤ RS.Dup.calculateHashSimilarity f1.2.1 f2.2.1) :
    (⟨f1.1, f2.1,
        max (RS.Dup.calculateHashSimilarity f1.2.1 f2.2.1) (structSim f1.2.2 f2.2.2),
        "phash+structural"⟩ : RS.Dup.DuplicateMatch) ∈
      RS.Dup.findDuplicatesInBatch structSim threshold files ∧
    RS.Dup.calculateHashSimilarity f1.2.1 f2.2.1 ≤
      max (RS.Dup.calculateHashSimilarity f1.2.1 f2.2.1) (structSim f1.2.2 f2.2.2) := by
  refine ⟨?_, le_max_left _ _⟩
  have hjn : j < (RS.Dup.batchFileHashes files).length :=
    List.getElem?_eq_some.mp hj |>.1
  have hpair : (i, j) ∈ RS.Dup.pairIdx (RS.Dup.batchFileHashes files).length :=
    RS.Dup.mem_pairIdx hij hjn
  obtain ⟨s, t, hsplit⟩ := List.append_of_mem hpair
  simp only [RS.Dup.findDuplicatesInBatch]
  rw [hsplit, List.foldl_append, List.foldl_cons]
  have hstep : RS.Dup.batchPairStep structSim threshold (RS.Dup.batchFileHashes files)
      (List.foldl (RS.Dup.batchPairStep structSim threshold (RS.Dup.batchFileHashes files)) [] s)
      (i, j) =
      (List.foldl (RS.Dup.batchPairStep structSim threshold (RS.Dup.batchFileHashes files)) [] s) ++
      [⟨f1.1, f2.1,
        max (RS.Dup.calculateHashSimilarity f1.2.1 f2.2.1) (structSim f1.2.2 f2.2.2),
        "phash+structural"⟩] := by
    unfold RS.Dup.batchPairStep
    rw [hi, hj]
    dsimp only
    rw [if_pos hgate, if_pos (le_trans hgate (le_max_left _ _))]
  rw [hstep]
  obtain ⟨tail, htail⟩ := RS.Dup.foldl_batchPairStep_extends structSim threshold
    (RS.Dup.batchFileHashes files) t _
  rw [htail]
  simp

/-- Witness for C10: two identical fingerprints in a two-file batch with
threshold 0.95 produce a match whose score is `max 1 0 = 1`. -/
theorem claim_C10_structural_recheck_never_rejects_witness :
    (⟨"A", "B",
        max (RS.Dup.calculateHashSimilarity 5 5) ((fun _ _ => (0 : ℚ)) "pa" "pb"),
        "phash+structural"⟩ : RS.Dup.DuplicateMatch) ∈
      RS.Dup.findDuplicatesInBatch (fun _ _ => (0 : ℚ)) (95/100)
        [⟨"A", "pa", some 5⟩, ⟨"B", "pb", some 5⟩] ∧
    RS.Dup.calculateHashSimilarity 5 5 ≤
      max (RS.Dup.calculateHashSimilarity 5 5) ((fun _ _ => (0 : ℚ)) "pa" "pb") :=
  claim_C10_structural_recheck_never_rejects (fun _ _ => (0 : ℚ)) (95/100)
    [⟨"A", "pa", some 5⟩, ⟨"B", "pb", some 5⟩] 0 1
    ("A", 5, "pa") ("B", 5, "pb") (by decide) (by decide) (by decide)
    (by simp [RS.Dup.calculateHashSimilarity, Nat.xor_self, RS.Dup.popCount_zero]; norm_num)

/-- C3: adding two byte-identical files under distinct fresh ids makes the
second an alias (`is_duplicate`) pointing at the first, both ids resolve
to the same storage path, and exactly one non-alias entry exists for the
shared content hash. -/
theorem claim_C3_identical_files_alias
    (hashFn : List ℕ → String) (st : RS.Cache.CacheState) (A B : String)
    (content : List ℕ) (mA mB : Option String) (t1 t2 t3 : ℤ)
    (hAB : A ≠ B)
    (hHash : RS.Cache.dlookup st.hashes (hashFn content) = none)
    (hA : RS.Cache.dlookup st.files A = none)
    (hB : RS.Cache.dlookup st.files B = none)
    (hNoHash : ∀ p ∈ st.files, p.2.contentHash ≠ hashFn content) :
    (∃ p, (RS.Cache.getCachedFilePathById
        (RS.Cache.addFileToCache hashFn
          (RS.Cache.addFileToCache hashFn st A content mA t1) B content mB t2)
        A t3).1 = some p ∧
      (RS.Cache.getCachedFilePathById
        (RS.Cache.addFileToCache hashFn
          (RS.Cache.addFileToCache hashFn st A content mA t1) B content mB t2)
        B t3).1 = some p) ∧
    ((RS.Cache.addFileToCache hashFn
        (RS.Cache.addFileToCache hashFn st A content mA t1) B content mB t2).files.filter
      (fun q => !q.2.isDuplicate && q.2.contentHash = hashFn content)).length = 1 ∧
    (RS.Cache.dlookup (RS.Cache.addFileToCache hashFn
        (RS.Cache.addFileToCache hashFn st A content mA t1) B content mB t2).files B).map
      (fun e => (e.isDuplicate, e.cacheFileId)) = some (true, A) := by
  have e1 : RS.Cache.addFileToCache hashFn st A content mA t1 =
      { files := RS.Cache.dinsert st.files A
          { originalFileId := A, cacheFileId := A, isDuplicate := false,
            contentHash := hashFn content, cachedAt := t1, metadataName := mA,
            cachePath := some (RS.Cache.getCachedFilePath A (mA.getD (A ++ ".jpg"))),
            fileSize := some content.length, lastAccessed := some t1 },
        hashes := RS.Cache.dinsert st.hashes (hashFn content) A,
        totalFiles := st.totalFiles + 1,
        totalSize := st.totalSize + content.length,
        disk := RS.Cache.getCachedFilePath A (mA.getD (A ++ ".jpg")) :: st.disk } := by
    simp only [RS.Cache.addFileToCache, hHash]
  set pA := RS.Cache.getCachedFilePath A (mA.getD (A ++ ".jpg")) with hpA
  set eA : RS.Cache.CacheEntry :=
    { originalFileId := A, cacheFileId := A, isDuplicate := false,
      contentHash := hashFn content, cachedAt := t1, metadataName := mA,
      cachePath := some pA, fileSize := some content.length,
      lastAccessed := some t1 } with heA
  set eB : RS.Cache.CacheEntry :=
    { originalFileId := B, cacheFileId := A, isDuplicate := true,
      contentHash := hashFn content, cachedAt := t2, metadataName := mB,
      cachePath := none, fileSize := none, lastAccessed := none } with heB
  have e2 : RS.Cache.addFileToCache hashFn
      (RS.Cache.addFileToCache hashFn st A content mA t1) B content mB t2 =
      { files := RS.Cache.dinsert (RS.Cache.dinsert st.files A eA) B eB,
        hashes := RS.Cache.dinsert st.hashes (hashFn content) A,
        totalFiles := st.totalFiles + 1,
        totalSize := st.totalSize + content.length,
        disk := pA :: st.disk } := by
    rw [e1]
    simp only [RS.Cache.addFileToCache, RS.Cache.dlookup_dinsert_self]
  have hfA : RS.Cache.dlookup (RS.Cache.dinsert (RS.Cache.dinsert st.files A eA) B eB) A =
      some eA := by
    rw [RS.Cache.dlookup_dinsert_ne _ _ _ _ hAB, RS.Cache.dlookup_dinsert_self]
  have hfB : RS.Cache.dlookup (RS.Cache.dinsert (RS.Cache.dinsert st.files A eA) B eB) B =
      some eB := RS.Cache.dlookup_dinsert_self _ _ _
  refine ⟨⟨pA, ?_, ?_⟩, ?_, ?_⟩
  · rw [e2]
    simp only [RS.Cache.getCachedFilePathById, hfA]
    simp [show eA.isDuplicate = false from rfl, show eA.cachePath = some pA from rfl,
      List.mem_cons_self]
  · rw [e2]
    simp only [RS.Cache.getCachedFilePathById, hfB]
    simp [show eB.isDuplicate = true from rfl, show eB.cacheFileId = A from rfl, hfA,
      show eA.cachePath = some pA from rfl, List.mem_cons_self]
  · rw [e2]
    have hfiles : RS.Cache.dinsert (RS.Cache.dinsert st.files A eA) B eB =
        st.files ++ [(A, eA)] ++ [(B, eB)] := by
      rw [RS.Cache.dinsert_fresh _ _ _ hA, RS.Cache.dinsert_fresh]
      rw [RS.Cache.dlookup_append, hB]
      simp [RS.Cache.dlookup, List.find?, hAB]
    rw [hfiles]
    simp only [List.filter_append, List.length_append]
    have h1 : (st.files.filter
        (fun q => !q.2.isDuplicate && q.2.contentHash = hashFn content)) = [] := by
      rw [List.filter_eq_nil_iff]
      intro q hq
      simp [hNoHash q hq]
    have h2 : ([(A, eA)].filter
        (fun q => !q.2.isDuplicate && q.2.contentHash = hashFn content)) = [(A, eA)] := by
      simp [heA]
    have h3 : ([(B, eB)].filter
        (fun q => !q.2.isDuplicate && q.2.contentHash = hashFn content)) = [] := by
      simp [heB]
    rw [h1, h2, h3]
    rfl
  · rw [e2]
    simp only [hfB, Option.map_some]
    rfl

/-- Witness for C3: two identical one-byte files ingested into the empty
cache under ids `A` and `B`. -/
theorem claim_C3_identical_files_alias_witness :
    (∃ p, (RS.Cache.getCachedFilePathById
        (RS.Cache.addFileToCache (fun _ => "h")
          (RS.Cache.addFileToCache (fun _ => "h") RS.Cache.emptyState "A" [7] none 0)
          "B" [7] none 1) "A" 2).1 = some p ∧
      (RS.Cache.getCachedFilePathById
        (RS.Cache.addFileToCache (fun _ => "h")
          (RS.Cache.addFileToCache (fun _ => "h") RS.Cache.emptyState "A" [7] none 0)
          "B" [7] none 1) "B" 2).1 = some p) ∧
    ((RS.Cache.addFileToCache (fun _ => "h")
        (RS.Cache.addFileToCache (fun _ => "h") RS.Cache.emptyState "A" [7] none 0)
        "B" [7] none 1).files.filter
      (fun q => !q.2.isDuplicate && q.2.contentHash = (fun (_ : List ℕ) => "h") [7])).length = 1 ∧
    (RS.Cache.dlookup (RS.Cache.addFileToCache (fun _ => "h")
        (RS.Cache.addFileToCache (fun _ => "h") RS.Cache.emptyState "A" [7] none 0)
        "B" [7] none 1).files "B").map
      (fun e => (e.isDuplicate, e.cacheFileId)) = some (true, "A") :=
  claim_C3_identical_files_alias (fun _ => "h") RS.Cache.emptyState "A" "B" [7]
    none none 0 1 2 (by decide) rfl rfl rfl (by intro p hp; simp [RS.Cache.emptyState] at hp)

namespace RS

namespace Cache

theorem dlookup_cons {α : Type} (k0 : String) (v0 : α) (rest : List (String × α))
    (k' : String) :
    dlookup ((k0, v0) :: rest) k' = if k0 = k' then some v0 else dlookup rest k' := by
  by_cases h : k0 = k'
  · simp [dlookup, List.find?, h]
  · simp [dlookup, List.find?, h]

theorem dlookup_dremove {α : Type} (m : List (String × α)) (k k' : String) :
    dlookup (dremove m k) k' = if k' = k then none else dlookup m k' := by
  induction m with
  | nil => simp [dremove, dlookup]
  | cons p rest ih =>
    obtain ⟨k0, v0⟩ := p
    simp only [dremove, List.filter_cons] at ih ⊢
    by_cases h1 : k' = k
    · subst h1
      by_cases h0 : k0 = k'
      · subst h0
        rw [if_neg (by simp)]
        rw [ih]
        simp
      · rw [if_pos (by simp [h0])]
        rw [dlookup_cons, if_neg h0, ih]
        simp
    · by_cases h0 : k0 = k
      · rw [if_neg (by simp [h0])]
        rw [ih, if_neg h1, if_neg h1, dlookup_cons,
          if_neg (fun hh => h1 (hh.symm.trans h0))]
      · rw [if_pos (by simp [h0])]
        rw [dlookup_cons]
        by_cases h2 : k0 = k'
        · rw [if_pos h2, if_neg h1, dlookup_cons, if_pos h2]
        · rw [if_neg h2, ih, if_neg h1, if_neg h1, dlookup_cons, if_neg h2]

theorem dlookup_removeFile (st : CacheState) (fileId k : String) :
    dlookup (removeFileFromCache st fileId).files k =
      if k = fileId then none else dlookup st.files k := by
  unfold removeFileFromCache
  rcases hf : dlookup st.files fileId with _ | e
  · by_cases h : k = fileId
    · subst h; simp [hf]
    · simp [h]
  · by_cases hd : e.isDuplicate
    · simp only [hd, if_true]
      exact dlookup_dremove _ _ _
    · simp only [hd, if_false]
      exact dlookup_dremove _ _ _

theorem foldl_remove_none (l : List (ℤ × String × ℤ)) :
    ∀ (st : CacheState) (k : String), dlookup st.files k = none →
      dlookup ((l.foldl (fun s x => removeFileFromCache s x.2.1) st)).files k = none := by
  induction l with
  | nil => intro st k h; simpa using h
  | cons x rest ih =>
    intro st k h
    refine ih _ k ?_
    rw [dlookup_removeFile]
    split
    · rfl
    · exact h

theorem foldl_remove_gone (l : List (ℤ × String × ℤ)) :
    ∀ (st : CacheState) (x : ℤ × String × ℤ), x ∈ l →
      dlookup ((l.foldl (fun s x => removeFileFromCache s x.2.1) st)).files x.2.1 = none := by
  induction l with
  | nil => intro st x h; simp at h
  | cons y rest ih =>
    intro st x hx
    rcases List.mem_cons.mp hx with rfl | hx
    · by_cases hmem : x ∈ rest
      · exact ih _ x hmem
      · refine foldl_remove_none rest _ _ ?_
        rw [dlookup_removeFile]
        simp
    · exact ih _ x hx

theorem getPath_alias_miss (st : CacheState) (a : String) (e : CacheEntry) (now : ℤ)
    (h1 : dlookup st.files a = some e) (h2 : e.isDuplicate = true)
    (h3 : dlookup st.files e.cacheFileId = none) :
    (getCachedFilePathById st a now).1 = none := by
  simp [getCachedFilePathById, h1, h2, h3]

theorem evictList_cons (budget cur : ℤ) (x : ℤ × String × ℤ)
    (xs : List (ℤ × String × ℤ)) :
    evictList budget cur (x :: xs) =
      if cur ≤ budget then [] else x :: evictList budget (cur - x.2.2) xs := rfl

theorem evictList_isPrefix (budget : ℤ) :
    ∀ (l : List (ℤ × String × ℤ)) (cur : ℤ),
      List.IsPrefix (evictList budget cur l) l := by
  intro l
  induction l with
  | nil => intro cur; simp [evictList]
  | cons x rest ih =>
    intro cur
    rw [evictList_cons]
    split
    · exact List.nil_prefix
    · exact List.cons_prefix_cons.mpr ⟨rfl, ih (cur - x.2.2)⟩

theorem evictList_over (budget : ℤ) :
    ∀ (l : List (ℤ × String × ℤ)) (cur : ℤ) (k : ℕ),
      k < (evictList budget cur l).length →
      budget < cur - (((evictList budget cur l).take k).map (fun x => x.2.2)).sum := by
  intro l
  induction l with
  | nil => intro cur k h; simp [evictList] at h
  | cons x rest ih =>
    intro cur k h
    rw [evictList_cons] at h ⊢
    by_cases hle : cur ≤ budget
    · rw [if_pos hle] at h
      simp at h
    · rw [if_neg hle] at h ⊢
      match k with
      | 0 => simpa using lt_of_not_ge hle
      | k + 1 =>
        simp only [List.length_cons, Nat.add_lt_add_iff_right] at h
        have := ih (cur - x.2.2) k h
        simp only [List.take_succ_cons, List.map_cons, List.sum_cons]
        omega

theorem evictList_stop (budget : ℤ) :
    ∀ (l : List (ℤ × String × ℤ)) (cur : ℤ),
      evictList budget cur l ≠ l →
      cur - ((evictList budget cur l).map (fun x => x.2.2)).sum ≤ budget := by
  intro l
  induction l with
  | nil => intro cur h; simp [evictList] at h
  | cons x rest ih =>
    intro cur h
    rw [evictList_cons] at h ⊢
    by_cases hle : cur ≤ budget
    · rw [if_pos hle]
      simpa using hle
    · rw [if_neg hle] at h ⊢
      have hne : evictList budget (cur - x.2.2) rest ≠ rest := by
        intro heq
        exact h (by rw [heq])
      have := ih (cur - x.2.2) hne
      simp only [List.map_cons, List.sum_cons]
      omega

theorem itemLE_trans (a b c : ℤ × String × ℤ) :
    itemLE a b → itemLE b c → itemLE a c := by
  simp only [itemLE, decide_eq_true_eq]
  intro hab hbc
  rcases hab with h1 | ⟨h1e, h2⟩ <;> rcases hbc with g1 | ⟨g1e, g2⟩
  · exact Or.inl (h1.trans g1)
  · exact Or.inl (g1e ▸ h1)
  · exact Or.inl (h1e ▸ g1)
  · refine Or.inr ⟨h1e.trans g1e, ?_⟩
    rcases h2 with hs | ⟨hse, hsz⟩ <;> rcases g2 with gs | ⟨gse, gsz⟩
    · exact Or.inl (hs.trans gs)
    · exact Or.inl (gse ▸ hs)
    · exact Or.inl (hse ▸ gs)
    · exact Or.inr ⟨hse.trans gse, hsz.trans gsz⟩

theorem itemLE_total (a b : ℤ × String × ℤ) :
    itemLE a b || itemLE b a := by
  simp only [Bool.or_eq_true, itemLE, decide_eq_true_eq]
  rcases lt_trichotomy a.1 b.1 with h | h | h
  · exact Or.inl (Or.inl h)
  · rcases lt_trichotomy a.2.1 b.2.1 with h2 | h2 | h2
    · exact Or.inl (Or.inr ⟨h, Or.inl h2⟩)
    · rcases le_total a.2.2 b.2.2 with h3 | h3
      · exact Or.inl (Or.inr ⟨h, Or.inr ⟨h2, h3⟩⟩)
      · exact Or.inr (Or.inr ⟨h.symm, Or.inr ⟨h2.symm, h3⟩⟩)
    · exact Or.inr (Or.inr ⟨h.symm, Or.inl h2⟩)
  · exact Or.inr (Or.inl h)

end Cache

end RS

/-- C4: on an over-budget cache, `enforce_cache_size_limit` evicts only
non-alias entries, in ascending (strictly, when the last-accessed stamps
are distinct) last-accessed order as a prefix of the sorted candidate
list; it keeps evicting exactly while the remaining size exceeds the
budget and stops as soon as it fits; evicted ids are gone from the index,
and a lookup of an alias whose target entry is gone returns `None`. -/
theorem claim_C4_enforce_size_limit
    (st : RS.Cache.CacheState) (budget : ℤ)
    (hover : budget < st.totalSize)
    (hdistinct : (RS.Cache.eligibleItems st).Pairwise (fun a b => a.1 ≠ b.1)) :
    (∀ x ∈ (RS.Cache.enforceCacheSizeLimit st budget).2,
        ∃ e, (x.2.1, e) ∈ st.files ∧ e.isDuplicate = false) ∧
    (RS.Cache.enforceCacheSizeLimit st budget).2.Pairwise (fun a b => a.1 < b.1) ∧
    List.IsPrefix (RS.Cache.enforceCacheSizeLimit st budget).2
      ((RS.Cache.eligibleItems st).mergeSort RS.Cache.itemLE) ∧
    (∀ k < (RS.Cache.enforceCacheSizeLimit st budget).2.length,
        budget < st.totalSize -
          (((RS.Cache.enforceCacheSizeLimit st budget).2.take k).map
            (fun x => x.2.2)).sum) ∧
    ((RS.Cache.enforceCacheSizeLimit st budget).2 ≠
        (RS.Cache.eligibleItems st).mergeSort RS.Cache.itemLE →
      st.totalSize -
        ((RS.Cache.enforceCacheSizeLimit st budget).2.map (fun x => x.2.2)).sum ≤ budget) ∧
    (∀ x ∈ (RS.Cache.enforceCacheSizeLimit st budget).2,
        RS.Cache.dlookup (RS.Cache.enforceCacheSizeLimit st budget).1.files x.2.1 = none) ∧
    (∀ (a : String) (e : RS.Cache.CacheEntry) (now : ℤ),
        RS.Cache.dlookup (RS.Cache.enforceCacheSizeLimit st budget).1.files a = some e →
        e.isDuplicate = true →
        RS.Cache.dlookup (RS.Cache.enforceCacheSizeLimit st budget).1.files
          e.cacheFileId = none →
        (RS.Cache.getCachedFilePathById
          (RS.Cache.enforceCacheSizeLimit st budget).1 a now).1 = none) := by
  have heq : RS.Cache.enforceCacheSizeLimit st budget =
      ((RS.Cache.evictList budget st.totalSize
          ((RS.Cache.eligibleItems st).mergeSort RS.Cache.itemLE)).foldl
        (fun s x => RS.Cache.removeFileFromCache s x.2.1) st,
       RS.Cache.evictList budget st.totalSize
        ((RS.Cache.eligibleItems st).mergeSort RS.Cache.itemLE)) := by
    simp only [RS.Cache.enforceCacheSizeLimit]
    rw [if_neg (not_le.mpr hover)]
  have hpre : List.IsPrefix (RS.Cache.enforceCacheSizeLimit st budget).2
      ((RS.Cache.eligibleItems st).mergeSort RS.Cache.itemLE) := by
    rw [heq]
    exact RS.Cache.evictList_isPrefix budget _ st.totalSize
  have hmemSorted : ∀ x ∈ (RS.Cache.enforceCacheSizeLimit st budget).2,
      x ∈ (RS.Cache.eligibleItems st).mergeSort RS.Cache.itemLE :=
    fun x hx => hpre.sublist.mem hx
  have hmemElig : ∀ x ∈ (RS.Cache.enforceCacheSizeLimit st budget).2,
      x ∈ RS.Cache.eligibleItems st :=
    fun x hx => ((RS.Cache.eligibleItems st).mergeSort_perm RS.Cache.itemLE).mem_iff.mp
      (hmemSorted x hx)
  refine ⟨?_, ?_, hpre, ?_, ?_, ?_, ?_⟩
  · intro x hx
    obtain ⟨p, hp, hpx⟩ := List.mem_filterMap.mp (hmemElig x hx)
    by_cases hd : p.2.isDuplicate
    · rw [if_pos hd] at hpx
      exact absurd hpx (by simp)
    · rw [if_neg hd] at hpx
      refine ⟨p.2, ?_, by simpa using hd⟩
      have hx21 : x.2.1 = p.1 := by
        rw [← Option.some_inj.mp hpx]
      rw [hx21]
      exact hp
  · have hsorted : List.Pairwise (fun a b => RS.Cache.itemLE a b = true)
        ((RS.Cache.eligibleItems st).mergeSort RS.Cache.itemLE) :=
      @List.sorted_mergeSort _ RS.Cache.itemLE RS.Cache.itemLE_trans RS.Cache.itemLE_total
        (RS.Cache.eligibleItems st)
    have hne : ((RS.Cache.eligibleItems st).mergeSort RS.Cache.itemLE).Pairwise
        (fun a b => a.1 ≠ b.1) :=
      (((RS.Cache.eligibleItems st).mergeSort_perm RS.Cache.itemLE).pairwise_iff
        (fun h => Ne.symm h)).mpr hdistinct
    have hboth := (hsorted.sublist hpre.sublist).and (hne.sublist hpre.sublist)
    refine hboth.imp ?_
    intro a b hab
    obtain ⟨hle, hneq⟩ := hab
    simp only [RS.Cache.itemLE, decide_eq_true_eq] at hle
    rcases hle with h | ⟨h, _⟩
    · exact h
    · exact absurd h hneq
  · intro k hk
    rw [heq] at hk ⊢
    exact RS.Cache.evictList_over budget _ st.totalSize k hk
  · intro hne
    rw [heq] at hne ⊢
    exact RS.Cache.evictList_stop budget _ st.totalSize hne
  · intro x hx
    rw [heq] at hx ⊢
    exact RS.Cache.foldl_remove_gone _ st x hx
  · intro a e now h1 h2 h3
    exact RS.Cache.getPath_alias_miss _ a e now h1 h2 h3

/-- A concrete over-budget cache for the C4 witness: two non-alias
entries of sizes 20 and 10, distinct last-accessed stamps, budget 10. -/
def c4State : RS.Cache.CacheState :=
  { files :=
      [("A", { originalFileId := "A", cacheFileId := "A", isDuplicate := false,
               contentHash := "hA", cachedAt := 1, metadataName := none,
               cachePath := some "images/A.jpg", fileSize := some 20,
               lastAccessed := some 5 }),
       ("B", { originalFileId := "B", cacheFileId := "B", isDuplicate := false,
               contentHash := "hB", cachedAt := 2, metadataName := none,
               cachePath := some "images/B.jpg", fileSize := some 10,
               lastAccessed := some 9 })],
    hashes := [("hA", "A"), ("hB", "B")],
    totalFiles := 2,
    totalSize := 30,
    disk := ["images/A.jpg", "images/B.jpg"] }

/-- Witness for C4 at the concrete state `c4State` with budget 10. -/
theorem claim_C4_enforce_size_limit_witness :
    (∀ x ∈ (RS.Cache.enforceCacheSizeLimit c4State 10).2,
        ∃ e, (x.2.1, e) ∈ c4State.files ∧ e.isDuplicate = false) ∧
    (RS.Cache.enforceCacheSizeLimit c4State 10).2.Pairwise (fun a b => a.1 < b.1) ∧
    List.IsPrefix (RS.Cache.enforceCacheSizeLimit c4State 10).2
      ((RS.Cache.eligibleItems c4State).mergeSort RS.Cache.itemLE) ∧
    (∀ k < (RS.Cache.enforceCacheSizeLimit c4State 10).2.length,
        (10 : ℤ) < c4State.totalSize -
          (((RS.Cache.enforceCacheSizeLimit c4State 10).2.take k).map
            (fun x => x.2.2)).sum) ∧
    ((RS.Cache.enforceCacheSizeLimit c4State 10).2 ≠
        (RS.Cache.eligibleItems c4State).mergeSort RS.Cache.itemLE →
      c4State.totalSize -
        ((RS.Cache.enforceCacheSizeLimit c4State 10).2.map (fun x => x.2.2)).sum ≤ 10) ∧
    (∀ x ∈ (RS.Cache.enforceCacheSizeLimit c4State 10).2,
        RS.Cache.dlookup (RS.Cache.enforceCacheSizeLimit c4State 10).1.files x.2.1 = none) ∧
    (∀ (a : String) (e : RS.Cache.CacheEntry) (now : ℤ),
        RS.Cache.dlookup (RS.Cache.enforceCacheSizeLimit c4State 10).1.files a = some e →
        e.isDuplicate = true →
        RS.Cache.dlookup (RS.Cache.enforceCacheSizeLimit c4State 10).1.files
          e.cacheFileId = none →
        (RS.Cache.getCachedFilePathById
          (RS.Cache.enforceCacheSizeLimit c4State 10).1 a now).1 = none) :=
  claim_C4_enforce_size_limit c4State 10 (by decide) (by decide)

namespace RS

/-! ## Validator / scorer (src/processing/validation.py)

Python `Decimal` is modelled as mantissa × exponent (`value = m·10^e`,
`as_tuple().exponent = e`); fixed-point arithmetic on these values is
exact, so it is carried out on the rational `val`.  Python `float` scores
are modelled as `ℚ` (every constant involved is small and decimal, and the
embedded comparisons are far from the float rounding error).  `date`
values are proleptic day ordinals (`ℤ`), and `date.today()` inside
`_is_reasonable_date` becomes the explicit `today` parameter.  Character
class tests (`isalpha`, `isdigit`, `[a-z]`) are modelled for ASCII text. -/

namespace Validation

/-- A Python `Decimal`: `m * 10^e` with its stored exponent. -/
structure Dec where
  m : ℤ
  e : ℤ
deriving DecidableEq

/-- Numeric value of a `Decimal`. -/
def Dec.val (d : Dec) : ℚ := (d.m : ℚ) * (10 : ℚ) ^ d.e

/-- Python truthiness of an optional `Decimal` field
(`if receipt.total_amount:`): `None` and zero are both falsy. -/
def decTruthy : Option Dec → Bool
  | none => false
  | some d => d.m ≠ 0

/-- Python truthiness of an optional string (empty string is falsy). -/
def strTruthy : Option String → Bool
  | none => false
  | some s => s ≠ ""

/-- Python truthiness of the optional float `quantity` (0.0 is falsy). -/
def qtyTruthy : Option ℚ → Bool
  | none => false
  | some q => q ≠ 0

/-- `ReceiptItem` from `data_extractor.py` (float `quantity` as `ℚ`). -/
structure ReceiptItem where
  description : String
  quantity : Option ℚ
  unit_price : Option Dec
  total_price : Option Dec
  confidence : ℚ
deriving DecidableEq

/-- `ReceiptData` from `data_extractor.py` (dates as day ordinals). -/
structure ReceiptData where
  merchant_name : Option String
  merchant_address : Option String
  merchant_phone : Option String
  date : Option ℤ
  time : Option String
  items : List ReceiptItem
  subtotal : Option Dec
  tax_amount : Option Dec
  tip_amount : Option Dec
  total_amount : Option Dec
  payment_method : Option String
  card_last_four : Option String
  receipt_number : Option String
  confidence_score : ℚ
  raw_text : String
deriving DecidableEq

/-- A validation issue: its `type` and `severity` tags (the `message`
strings are presentation-only and never inspected by the code). -/
structure Issue where
  type : String
  severity : String
deriving DecidableEq

/-- The per-category sub-scores of a validation result. -/
structure Scores where
  merchant : ℚ
  dateTime : ℚ
  amounts : ℚ
  items : ℚ
  calculations : ℚ
  dataQuality : ℚ
deriving DecidableEq

/-- The dict returned by `validate_receipt` (warnings carry their `type`
tag; `suggestions` is never filled by the source). -/
structure ValidationResult where
  isValid : Bool
  confidenceScore : ℚ
  scores : Scores
  issues : List Issue
  warnings : List String
  suggestions : List String
deriving DecidableEq

/-- `_is_reasonable_merchant_name`: reject symbol/number-only strings,
1–2 letter strings, bare receipt vocabulary and asterisk runs, then
require 3–50 characters. -/
def isReasonableMerchantName (name : String) : Bool :=
  let name := (name.trim.toLower)
  let cs := name.toList
  if cs ≠ [] ∧ cs.all (fun c => c.isDigit ∨ c ∈ ['*', '-', '+', '=']) then false
  else if cs ≠ [] ∧ cs.length ≤ 2 ∧ cs.all (fun c => 'a' ≤ c ∧ c ≤ 'z') then false
  else if name = "total" ∨ name = "subtotal" ∨ name = "tax" ∨ name = "cash" then false
  else if cs ≠ [] ∧ cs.all (fun c => c = '*') then false
  else 3 ≤ name.length ∧ name.length ≤ 50

/-- `_is_reasonable_date`: not in the future and at most 3650 days old. -/
def isReasonableDate (receiptDate today : ℤ) : Bool :=
  if receiptDate > today then false
  else if today - receiptDate > 3650 then false
  else true

/-- `^\d{1,2}:\d{2}$` -/
def timeHHMM : List Char → Bool
  | [h1, ':', m1, m2] => h1.isDigit ∧ m1.isDigit ∧ m2.isDigit
  | [h1, h2, ':', m1, m2] => h1.isDigit ∧ h2.isDigit ∧ m1.isDigit ∧ m2.isDigit
  | _ => false

/-- `^\d{1,2}:\d{2}:\d{2}$` -/
def timeHHMMSS : List Char → Bool
  | [h1, ':', m1, m2, ':', s1, s2] =>
    h1.isDigit ∧ m1.isDigit ∧ m2.isDigit ∧ s1.isDigit ∧ s2.isDigit
  | [h1, h2, ':', m1, m2, ':', s1, s2] =>
    h1.isDigit ∧ h2.isDigit ∧ m1.isDigit ∧ m2.isDigit ∧ s1.isDigit ∧ s2.isDigit
  | _ => false

/-- `^\d{1,2}:\d{2}\s*(am|pm)$` (on the lower-cased string). -/
def timeAMPM : List Char → Bool
  | h1 :: ':' :: m1 :: m2 :: rest =>
    h1.isDigit ∧ m1.isDigit ∧ m2.isDigit ∧
      (rest.dropWhile Char.isWhitespace = ['a', 'm'] ∨
       rest.dropWhile Char.isWhitespace = ['p', 'm'])
  | h1 :: h2 :: ':' :: m1 :: m2 :: rest =>
    h1.isDigit ∧ h2.isDigit ∧ m1.isDigit ∧ m2.isDigit ∧
      (rest.dropWhile Char.isWhitespace = ['a', 'm'] ∨
       rest.dropWhile Char.isWhitespace = ['p', 'm'])
  | _ => false

/-- `_is_valid_time_format` from `validation.py`. -/
def isValidTimeFormat (t : String) : Bool :=
  let cs := t.toLower.toList
  timeHHMM cs ∨ timeHHMMSS cs ∨ timeAMPM cs

/-- `^\d{3}-\d{3}-\d{4}$` (and the dotted variant via the `sep`
parameter). -/
def phoneSep (sep : Char) : List Char → Bool
  | [a, b, c, s1, d, e, f, s2, g, h, i, j] =>
    s1 = sep ∧ s2 = sep ∧ [a, b, c, d, e, f, g, h, i, j].all Char.isDigit
  | _ => false

/-- `^\(\d{3}\)\s*\d{3}-\d{4}$` -/
def phoneParen : List Char → Bool
  | '(' :: a :: b :: c :: ')' :: rest =>
    a.isDigit && b.isDigit && c.isDigit &&
      (match rest.dropWhile Char.isWhitespace with
       | [d, e, f, '-', g, h, i, j] => [d, e, f, g, h, i, j].all Char.isDigit
       | _ => false)
  | _ => false

/-- `_is_valid_phone_format` from `validation.py`. -/
def isValidPhoneFormat (phone : String) : Bool :=
  let cs := phone.toList
  phoneSep '-' cs ∨ phoneParen cs ∨ phoneSep '.' cs ∨
    (cs.length = 10 ∧ cs.all Char.isDigit)

/-- `_is_reasonable_amount`: positive, at most 10000, and at most two
decimal places (`as_tuple().exponent < -2` rejects). -/
def isReasonableAmount (amount : Dec) : Bool :=
  if amount.val ≤ 0 then false
  else if amount.val > 10000 then false
  else if amount.e < -2 then false
  else true

/-- `_assess_text_quality` from `validation.py`. -/
def assessTextQuality (text : String) : ℚ :=
  if text = "" then 0
  else
    let lengthScore : ℚ :=
      if 50 < text.length then 3/10 else if 20 < text.length then 2/10 else 0
    let hasLetters := text.toList.any Char.isAlpha
    let hasNumbers := text.toList.any Char.isDigit
    let hasPunctuation := text.toList.any
      (fun c => c ∈ ['.', ',', ';', ':', '!', '?', '$', '(', ')', '[', ']', '{', '}'])
    let score := lengthScore + (if hasLetters then 3/10 else 0) +
      (if hasNumbers then 2/10 else 0) + (if hasPunctuation then 2/10 else 0)
    min score 1

/-- `_validate_merchant_info`: score plus the issues it appends.  Each
sub-validator below returns `(score, issues, warning-types)`; the caller
concatenates the lists in call order. -/
def validateMerchantInfo (r : ReceiptData) : ℚ × List Issue × List String :=
  let nameRes : ℚ × List Issue :=
    if strTruthy r.merchant_name then
      if 3 ≤ (r.merchant_name.getD "").trim.length then
        ((1/2 : ℚ) +
          (if isReasonableMerchantName (r.merchant_name.getD "") then 3/10 else 0), [])
      else (0, [⟨"merchant_name_too_short", "warning"⟩])
    else (0, [⟨"missing_merchant_name", "minor"⟩])
  let addressScore : ℚ :=
    if strTruthy r.merchant_address ∧ 10 ≤ (r.merchant_address.getD "").trim.length
    then 1/10 else 0
  let phoneScore : ℚ :=
    if strTruthy r.merchant_phone ∧ isValidPhoneFormat (r.merchant_phone.getD "")
    then 1/10 else 0
  (min (nameRes.1 + addressScore + phoneScore) 1, nameRes.2, [])

/-- `_validate_date_time` (with `date.today()` as `today`). -/
def validateDateTime (r : ReceiptData) (today : ℤ) : ℚ × List Issue × List String :=
  let dateRes : ℚ × List Issue :=
    match r.date with
    | some d =>
      if isReasonableDate d today then ((7/10 : ℚ), [])
      else ((3/10 : ℚ), [⟨"unreasonable_date", "warning"⟩])
    | none => (0, [⟨"missing_date", "minor"⟩])
  let timeRes : ℚ × List String :=
    if strTruthy r.time then
      if isValidTimeFormat (r.time.getD "") then ((3/10 : ℚ), [])
      else (0, ["invalid_time_format"])
    else (0, [])
  (min (dateRes.1 + timeRes.1) 1, dateRes.2, timeRes.2)

/-- `_validate_amounts`.  The `missing_total` issue is the only `critical`
issue any sub-validator can produce. -/
def validateAmounts (r : ReceiptData) : ℚ × List Issue × List String :=
  let totalRes : ℚ × List Issue :=
    if decTruthy r.total_amount then
      if isReasonableAmount (r.total_amount.getD ⟨0, 0⟩) then ((1/2 : ℚ), [])
      else (0, [⟨"unreasonable_total", "warning"⟩])
    else (0, [⟨"missing_total", "critical"⟩])
  let subtotalScore : ℚ :=
    if decTruthy r.subtotal ∧ isReasonableAmount (r.subtotal.getD ⟨0, 0⟩)
    then 1/5 else 0
  let taxRes : ℚ × List String :=
    if decTruthy r.tax_amount then
      if isReasonableAmount (r.tax_amount.getD ⟨0, 0⟩) then
        if decTruthy r.subtotal then
          let taxRate := (r.tax_amount.getD ⟨0, 0⟩).val / (r.subtotal.getD ⟨0, 0⟩).val
          if 1/100 ≤ taxRate ∧ taxRate ≤ 1/5 then ((1/10 + 1/10 : ℚ), [])
          else ((1/10 : ℚ), ["unusual_tax_rate"])
        else ((1/10 : ℚ), [])
      else (0, [])
    else (0, [])
  let tipScore : ℚ :=
    if decTruthy r.tip_amount ∧ isReasonableAmount (r.tip_amount.getD ⟨0, 0⟩)
    then 1/10 else 0
  (min (totalRes.1 + subtotalScore + taxRes.1 + tipScore) 1, totalRes.2, taxRes.2)

/-- The per-item score and warnings of the loop body in
`_validate_items`. -/
def itemScore (item : ReceiptItem) : ℚ × List String :=
  let s1 : ℚ :=
    if item.description ≠ "" ∧ 3 ≤ item.description.trim.length then 1/2 else 0
  let s2 : ℚ :=
    if decTruthy item.total_price ∧ isReasonableAmount (item.total_price.getD ⟨0, 0⟩)
    then 3/10 else 0
  if qtyTruthy item.quantity ∧ decTruthy item.unit_price ∧ decTruthy item.total_price then
    let calculatedTotal := (item.unit_price.getD ⟨0, 0⟩).val * (item.quantity.getD 0)
    if |calculatedTotal - (item.total_price.getD ⟨0, 0⟩).val| < 2/100 then
      (s1 + s2 + 1/5, [])
    else (s1 + s2, ["item_calculation_mismatch"])
  else (s1 + s2, [])

/-- `_validate_items`. -/
def validateItems (r : ReceiptData) : ℚ × List Issue × List String :=
  if r.items = [] then (0, [⟨"no_items", "minor"⟩], [])
  else
    let results := r.items.map itemScore
    let validItems := (results.filter (fun p => 1/2 ≤ p.1)).length
    ((validItems : ℚ) / (r.items.length : ℚ), [], results.flatMap Prod.snd)

/-- `_validate_calculations`. -/
def validateCalculations (r : ReceiptData) : ℚ × List Issue × List String :=
  let base : ℚ := 1/2
  let totalsRes : ℚ × List Issue :=
    if decTruthy r.subtotal ∧ decTruthy r.tax_amount ∧ decTruthy r.total_amount then
      let calculatedTotal := (r.subtotal.getD ⟨0, 0⟩).val + (r.tax_amount.getD ⟨0, 0⟩).val
        + (if decTruthy r.tip_amount then (r.tip_amount.getD ⟨0, 0⟩).val else 0)
      if |calculatedTotal - (r.total_amount.getD ⟨0, 0⟩).val| < 2/100 then ((3/10 : ℚ), [])
      else (0, [⟨"total_calculation_error", "warning"⟩])
    else (0, [])
  let itemsRes : ℚ × List String :=
    if r.items ≠ [] ∧ decTruthy r.subtotal then
      let itemsTotal := (r.items.map
        (fun i => if decTruthy i.total_price then (i.total_price.getD ⟨0, 0⟩).val else 0)).sum
      if |itemsTotal - (r.subtotal.getD ⟨0, 0⟩).val| < 5/100 then ((1/5 : ℚ), [])
      else (0, ["items_subtotal_mismatch"])
    else (0, [])
  (min (base + totalsRes.1 + itemsRes.1) 1, totalsRes.2, itemsRes.2)

/-- `_validate_data_quality`. -/
def validateDataQuality (r : ReceiptData) : ℚ × List Issue × List String :=
  let ocrScore : ℚ := if r.confidence_score ≠ 0 then r.confidence_score * (2/5) else 0
  let completeness : ℚ :=
    ((if strTruthy r.merchant_name then 1 else 0) + (if r.date.isSome then 1 else 0) +
     (if decTruthy r.total_amount then 1 else 0) + (if decTruthy r.subtotal then 1 else 0) +
     (if decTruthy r.tax_amount then 1 else 0) + (if r.items ≠ [] then 1 else 0) +
     (if strTruthy r.payment_method then 1 else 0)) / 7
  let textScore : ℚ :=
    if r.raw_text ≠ "" then assessTextQuality r.raw_text * (3/10) else 0
  (min (ocrScore + completeness * (3/10) + textScore) 1, [], [])

/-- `_calculate_overall_confidence`: fixed weights over the six always
present categories, normalized by the total weight. -/
def calculateOverallConfidence (s : Scores) : ℚ :=
  let weightedScore := s.amounts * (3/10) + s.calculations * (1/4) + s.merchant * (3/20)
    + s.items * (3/20) + s.dateTime * (1/10) + s.dataQuality * (1/20)
  let totalWeight : ℚ := 3/10 + 1/4 + 3/20 + 3/20 + 1/10 + 1/20
  if 0 < totalWeight then weightedScore / totalWeight else 0

/-- `validate_receipt` from `validation.py` (the `today` parameter stands
for `date.today()` read inside `_is_reasonable_date`; the exception
handler is dead code in this total embedding). -/
def validateReceipt (r : ReceiptData) (minConfidenceThreshold : ℚ) (today : ℤ) :
    ValidationResult :=
  let m := validateMerchantInfo r
  let d := validateDateTime r today
  let a := validateAmounts r
  let it := validateItems r
  let c := validateCalculations r
  let q := validateDataQuality r
  let scores : Scores := ⟨m.1, d.1, a.1, it.1, c.1, q.1⟩
  let issues := m.2.1 ++ d.2.1 ++ a.2.1 ++ it.2.1 ++ c.2.1 ++ q.2.1
  let warnings := m.2.2 ++ d.2.2 ++ a.2.2 ++ it.2.2 ++ c.2.2 ++ q.2.2
  let overallConfidence := calculateOverallConfidence scores
  { isValid := decide (minConfidenceThreshold ≤ overallConfidence) &&
      decide ((issues.filter (fun i => i.severity = "critical")).length = 0),
    confidenceScore := overallConfidence,
    scores := scores,
    issues := issues,
    warnings := warnings,
    suggestions := [] }

end Validation

end RS

namespace RS

namespace Validation

theorem merchant_no_critical (r : ReceiptData) :
    (validateMerchantInfo r).2.1.filter (fun i => i.severity = "critical") = [] := by
  unfold validateMerchantInfo
  dsimp only
  split_ifs <;> simp

theorem decTruthy_none : decTruthy none = false := rfl

theorem dateTime_no_critical (r : ReceiptData) (today : ℤ) :
    (validateDateTime r today).2.1.filter (fun i => i.severity = "critical") = [] := by
  unfold validateDateTime
  rcases r.date with _ | d
  · simp
  · dsimp only
    split_ifs <;> simp

theorem items_no_critical (r : ReceiptData) :
    (validateItems r).2.1.filter (fun i => i.severity = "critical") = [] := by
  unfold validateItems
  split_ifs <;> simp

theorem calculations_no_critical (r : ReceiptData) :
    (validateCalculations r).2.1.filter (fun i => i.severity = "critical") = [] := by
  unfold validateCalculations
  dsimp only
  split_ifs <;> simp

theorem dataQuality_no_critical (r : ReceiptData) :
    (validateDataQuality r).2.1.filter (fun i => i.severity = "critical") = [] := by
  simp [validateDataQuality]

theorem amounts_issues_of_falsy (r : ReceiptData)
    (h : decTruthy r.total_amount = false) :
    (validateAmounts r).2.1 = [⟨"missing_total", "critical"⟩] := by
  unfold validateAmounts
  dsimp only
  rw [if_neg (by simp [h])]

theorem validate_missingTotal (r : ReceiptData) (threshold : ℚ) (today : ℤ)
    (h : decTruthy r.total_amount = false) :
    (validateReceipt r threshold today).issues.filter
        (fun i => i.severity = "critical") = [⟨"missing_total", "critical"⟩] ∧
    (validateReceipt r threshold today).isValid = false := by
  have hiss : (validateReceipt r threshold today).issues.filter
      (fun i => i.severity = "critical") = [⟨"missing_total", "critical"⟩] := by
    show ((validateMerchantInfo r).2.1 ++ (validateDateTime r today).2.1 ++
        (validateAmounts r).2.1 ++ (validateItems r).2.1 ++
        (validateCalculations r).2.1 ++ (validateDataQuality r).2.1).filter
        (fun i => i.severity = "critical") = [⟨"missing_total", "critical"⟩]
    simp only [List.filter_append, merchant_no_critical, dateTime_no_critical,
      items_no_critical, calculations_no_critical, dataQuality_no_critical,
      amounts_issues_of_falsy r h]
    rfl
  refine ⟨hiss, ?_⟩
  show (decide (threshold ≤ calculateOverallConfidence _) &&
    decide ((((validateMerchantInfo r).2.1 ++ (validateDateTime r today).2.1 ++
      (validateAmounts r).2.1 ++ (validateItems r).2.1 ++
      (validateCalculations r).2.1 ++ (validateDataQuality r).2.1).filter
        (fun i => i.severity = "critical")).length = 0)) = false
  have : (((validateMerchantInfo r).2.1 ++ (validateDateTime r today).2.1 ++
      (validateAmounts r).2.1 ++ (validateItems r).2.1 ++
      (validateCalculations r).2.1 ++ (validateDataQuality r).2.1).filter
        (fun i => i.severity = "critical")) = [⟨"missing_total", "critical"⟩] := hiss
  rw [this]
  simp

end Validation

end RS

/-- C1: for every record whose `total_amount` is unset, `validate_receipt`
reports exactly one `critical` issue — of type `missing_total` — and
`is_valid` is `false` regardless of every other sub-score. -/
theorem claim_C1_missing_total_critical (r : RS.Validation.ReceiptData)
    (threshold : ℚ) (today : ℤ) (h : r.total_amount = none) :
    (RS.Validation.validateReceipt r threshold today).issues.filter
        (fun i => i.severity = "critical") =
      [⟨"missing_total", "critical"⟩] ∧
    (RS.Validation.validateReceipt r threshold today).isValid = false :=
  RS.Validation.validate_missingTotal r threshold today
    (by rw [h]; rfl)

/-- A record with everything but the total filled in, for the C1 witness. -/
def c1Record : RS.Validation.ReceiptData :=
  { merchant_name := some "Main Street Cafe", merchant_address := none,
    merchant_phone := none, date := some 700000, time := some "12:30",
    items := [⟨"Coffee", some 1, some ⟨250, -2⟩, some ⟨250, -2⟩, 8/10⟩],
    subtotal := some ⟨250, -2⟩, tax_amount := some ⟨20, -2⟩, tip_amount := none,
    total_amount := none, payment_method := some "visa", card_last_four := none,
    receipt_number := none, confidence_score := 9/10, raw_text := "Coffee 2.50" }

/-- Witness for C1 at a concrete record with `total_amount` unset. -/
theorem claim_C1_missing_total_critical_witness :
    (RS.Validation.validateReceipt c1Record (3/5) 700010).issues.filter
        (fun i => i.severity = "critical") =
      [⟨"missing_total", "critical"⟩] ∧
    (RS.Validation.validateReceipt c1Record (3/5) 700010).isValid = false :=
  claim_C1_missing_total_critical c1Record (3/5) 700010 rfl

/-- C9: a `total_amount` equal to `Decimal('0.00')` is falsy in Python, so
`validate_receipt` treats it exactly like an unset total: the whole
validation result coincides with the one for the record with
`total_amount` removed, including the critical `missing_total` issue and
`is_valid = false`. -/
theorem claim_C9_zero_total_is_missing (r : RS.Validation.ReceiptData)
    (threshold : ℚ) (today : ℤ) (d : RS.Validation.Dec)
    (h : r.total_amount = some d) (hz : d.m = 0) :
    RS.Validation.validateReceipt r threshold today =
      RS.Validation.validateReceipt { r with total_amount := none } threshold today ∧
    (RS.Validation.validateReceipt r threshold today).issues.filter
        (fun i => i.severity = "critical") =
      [⟨"missing_total", "critical"⟩] ∧
    (RS.Validation.validateReceipt r threshold today).isValid = false := by
  have hf : RS.Validation.decTruthy r.total_amount = false := by
    rw [h]
    simp [RS.Validation.decTruthy, hz]
  have hM : RS.Validation.validateMerchantInfo r =
      RS.Validation.validateMerchantInfo { r with total_amount := none } := rfl
  have hD : RS.Validation.validateDateTime r today =
      RS.Validation.validateDateTime { r with total_amount := none } today := rfl
  have hI : RS.Validation.validateItems r =
      RS.Validation.validateItems { r with total_amount := none } := rfl
  have hA : RS.Validation.validateAmounts r =
      RS.Validation.validateAmounts { r with total_amount := none } := by
    simp [RS.Validation.validateAmounts, hf, RS.Validation.decTruthy_none]
  have hC : RS.Validation.validateCalculations r =
      RS.Validation.validateCalculations { r with total_amount := none } := by
    simp [RS.Validation.validateCalculations, hf, RS.Validation.decTruthy_none]
  have hQ : RS.Validation.validateDataQuality r =
      RS.Validation.validateDataQuality { r with total_amount := none } := by
    simp [RS.Validation.validateDataQuality, hf, RS.Validation.decTruthy_none]
  refine ⟨?_, RS.Validation.validate_missingTotal r threshold today hf⟩
  simp only [RS.Validation.validateReceipt, hM, hD, hI, hA, hC, hQ]

/-- A record whose total is `Decimal('0.00')`, for the C9 witness. -/
def c9Record : RS.Validation.ReceiptData :=
  { merchant_name := some "Main Street Cafe", merchant_address := none,
    merchant_phone := none, date := none, time := none,
    items := [], subtotal := some ⟨250, -2⟩, tax_amount := none, tip_amount := none,
    total_amount := some ⟨0, -2⟩, payment_method := none, card_last_four := none,
    receipt_number := none, confidence_score := 0, raw_text := "" }

/-- Witness for C9 at a concrete record with total `Decimal('0.00')`. -/
theorem claim_C9_zero_total_is_missing_witness :
    RS.Validation.validateReceipt c9Record (3/5) 700010 =
      RS.Validation.validateReceipt { c9Record with total_amount := none } (3/5) 700010 ∧
    (RS.Validation.validateReceipt c9Record (3/5) 700010).issues.filter
        (fun i => i.severity = "critical") =
      [⟨"missing_total", "critical"⟩] ∧
    (RS.Validation.validateReceipt c9Record (3/5) 700010).isValid = false :=
  claim_C9_zero_total_is_missing c9Record (3/5) 700010 ⟨0, -2⟩ rfl rfl

/-- A record carrying only a date, used for the C2 counterexample and
witness: evaluated "today" = day 4 the date is in the future (score 0.3),
evaluated "today" = day 5 it is reasonable (score 0.7). -/
def c2Record : RS.Validation.ReceiptData :=
  { merchant_name := none, merchant_address := none, merchant_phone := none,
    date := some 5, time := none, items := [], subtotal := none, tax_amount := none,
    tip_amount := none, total_amount := none, payment_method := none,
    card_last_four := none, receipt_number := none, confidence_score := 0,
    raw_text := "" }

/-- Counterexample to C2 as stated: the confidence score of the very same
record differs between two evaluation days, because `_is_reasonable_date`
consults `date.today()` — so the score is not a function of the record and
OCR confidence alone. -/
theorem claim_C2_counterexample :
    (RS.Validation.validateReceipt c2Record (3/5) 4).confidenceScore ≠
      (RS.Validation.validateReceipt c2Record (3/5) 5).confidenceScore := by
  simp [RS.Validation.validateReceipt, RS.Validation.validateMerchantInfo,
    RS.Validation.validateDateTime, RS.Validation.validateAmounts,
    RS.Validation.validateItems, RS.Validation.validateCalculations,
    RS.Validation.validateDataQuality, RS.Validation.calculateOverallConfidence,
    RS.Validation.assessTextQuality, RS.Validation.strTruthy, RS.Validation.decTruthy,
    RS.Validation.qtyTruthy, RS.Validation.isReasonableDate, c2Record]
  norm_num

/-- C2 amended: the scoring formula is deterministic in the record, the
OCR confidence *and the current date*; the current date enters only
through `_is_reasonable_date`, so whenever that check agrees between two
evaluation days the whole validation result (in particular the confidence
score) coincides. -/
theorem claim_C2_confidence_deterministic (r : RS.Validation.ReceiptData)
    (threshold : ℚ) (d1 d2 : ℤ)
    (h : ∀ rd, r.date = some rd →
      RS.Validation.isReasonableDate rd d1 = RS.Validation.isReasonableDate rd d2) :
    RS.Validation.validateReceipt r threshold d1 =
      RS.Validation.validateReceipt r threshold d2 := by
  have hdt : RS.Validation.validateDateTime r d1 = RS.Validation.validateDateTime r d2 := by
    unfold RS.Validation.validateDateTime
    rcases hd : r.date with _ | rd
    · rfl
    · simp [h rd hd]
  simp only [RS.Validation.validateReceipt, hdt]

/-- Witness for the amended C2: evaluating `c2Record` on two days on which
the date-reasonableness check agrees yields identical results. -/
theorem claim_C2_confidence_deterministic_witness :
    RS.Validation.validateReceipt c2Record (3/5) 5 =
      RS.Validation.validateReceipt c2Record (3/5) 6 :=
  claim_C2_confidence_deterministic c2Record (3/5) 5 6
    (by
      intro rd hrd
      have h5 := hrd
      simp only [c2Record, Option.some.injEq] at h5
      subst h5
      decide)

namespace RS

/-! ## Field extractor: amount and item patterns
    (src/processing/data_extractor.py)

The keyword-anchored amount regexes and the item-line regex are embedded
as explicit matchers with Python `re.search`/`re.match` semantics:
leftmost match position wins, alternatives are tried in order at each
position, greedy classes (`[:\s]*`, `\d+`, `\s+`) never need to backtrack
here because the token that follows them is disjoint from the class, and
`(\d+\.\d{2})` is a maximal digit run, a dot and exactly two digits.
`_extract_items` tries the three item patterns in order with
first-match-wins per line; every line matched by pattern 2 or 3 (they end
in `\s+\$?(\d+\.\d{2})$` after a non-empty prefix) is also matched by
pattern 1 (`^(.+?)\s+\$?(\d+\.\d{2})$`), so pattern 1 alone decides which
lines become items. -/

namespace Extract

/-- Case-insensitive literal prefix match (pattern letters are lower
case, `re.IGNORECASE`); returns the remaining input. -/
def ciPrefix : List Char → List Char → Option (List Char)
  | [], cs => some cs
  | _ :: _, [] => none
  | k :: ks, c :: cs => if c.toLower = k then ciPrefix ks cs else none

/-- `[:\s]*\$?(\d+\.\d{2})` right after a matched keyword; `allowDollar`
distinguishes the first pattern of each family from the `\$?`-less second
one.  Returns the captured group. -/
def parseAmountTail (allowDollar : Bool) (cs : List Char) : Option (List Char) :=
  let cs := cs.dropWhile (fun c => c = ':' ∨ c.isWhitespace)
  let cs := if allowDollar then (match cs with | '$' :: rest => rest | _ => cs) else cs
  let ds := cs.takeWhile Char.isDigit
  let rest := cs.drop ds.length
  if ds = [] then none
  else
    match rest with
    | '.' :: d1 :: d2 :: _ =>
      if d1.isDigit ∧ d2.isDigit then some (ds ++ ['.', d1, d2]) else none
    | _ => none

/-- Try the keyword alternatives (in pattern order) at one position. -/
def tryAmountAt (kws : List (List Char)) (allowDollar : Bool) (cs : List Char) :
    Option (List Char) :=
  match kws with
  | [] => none
  | k :: rest =>
    match ciPrefix k cs with
    | some tail =>
      match parseAmountTail allowDollar tail with
      | some cap => some cap
      | none => tryAmountAt rest allowDollar cs
    | none => tryAmountAt rest allowDollar cs

/-- `re.search`: try every position left to right. -/
def searchAmount (kws : List (List Char)) (allowDollar : Bool) :
    List Char → Option (List Char)
  | [] => none
  | c :: rest =>
    match tryAmountAt kws allowDollar (c :: rest) with
    | some cap => some cap
    | none => searchAmount kws allowDollar rest

/-- Value of a digit run. -/
def digitsToNat (l : List Char) : ℕ :=
  l.foldl (fun a c => 10 * a + (c.toNat - 48)) 0

/-- `Decimal(amount_str)` for a captured `\d+\.\d{2}` group (the captures
of these patterns never contain commas, so the `replace(',', '')` is the
identity on them). -/
def decOfCapture (cap : List Char) : Validation.Dec :=
  let intPart := cap.takeWhile Char.isDigit
  let fracPart := cap.drop (intPart.length + 1)
  ⟨(digitsToNat (intPart ++ fracPart) : ℤ), -(fracPart.length : ℤ)⟩

/-- `_extract_amount`: first pattern (keyword alternatives plus whether
`\$?` is present) that matches anywhere in the text wins. -/
def extractAmount (patterns : List (List (List Char) × Bool)) (text : String) :
    Option Validation.Dec :=
  match patterns with
  | [] => none
  | (kws, dollar) :: rest =>
    match searchAmount kws dollar text.toList with
    | some cap => some (decOfCapture cap)
    | none => extractAmount rest text

/-- `total_patterns` from `_compile_patterns`. -/
def totalPatterns : List (List (List Char) × Bool) :=
  [(["total".toList, "amount due".toList, "balance due".toList,
     "grand total".toList], true),
   (["total".toList], false)]

/-- `subtotal_patterns`. -/
def subtotalPatterns : List (List (List Char) × Bool) :=
  [(["subtotal".toList, "sub total".toList, "sub-total".toList], true),
   (["subtotal".toList], false)]

/-- `tax_patterns`. -/
def taxPatterns : List (List (List Char) × Bool) :=
  [(["tax".toList, "sales tax".toList, "vat".toList], true),
   (["tax".toList], false)]

/-- `tip_patterns`. -/
def tipPatterns : List (List (List Char) × Bool) :=
  [(["tip".toList, "gratuity".toList], true)]

/-- `_extract_total_amount`. -/
def extractTotalAmount (text : String) : Option Validation.Dec :=
  extractAmount totalPatterns text

/-- `_extract_subtotal`. -/
def extractSubtotal (text : String) : Option Validation.Dec :=
  extractAmount subtotalPatterns text

/-- `_extract_tax_amount`. -/
def extractTaxAmount (text : String) : Option Validation.Dec :=
  extractAmount taxPatterns text

/-- `_extract_tip_amount`. -/
def extractTipAmount (text : String) : Option Validation.Dec :=
  extractAmount tipPatterns text

/-- The tail of item pattern 1 after the lazy description:
`\s+\$?(\d+\.\d{2})$`. -/
def itemTail (rest : List Char) : Option (List Char) :=
  let ws := rest.takeWhile Char.isWhitespace
  if ws = [] then none
  else
    let r1 := rest.drop ws.length
    let r2 := match r1 with | '$' :: t => t | _ => r1
    let ds := r2.takeWhile Char.isDigit
    let r3 := r2.drop ds.length
    if ds = [] then none
    else
      match r3 with
      | ['.', d1, d2] => if d1.isDigit ∧ d2.isDigit then some (ds ++ ['.', d1, d2]) else none
      | _ => none

/-- Item pattern 1, `^(.+?)\s+\$?(\d+\.\d{2})$`: the lazy description
grows from one character until the tail matches.  Returns description and
price capture. -/
def itemPat0Go (desc : List Char) : List Char → Option (List Char × List Char)
  | [] => none
  | c :: rest =>
    match itemTail rest with
    | some cap => some (desc ++ [c], cap)
    | none => itemPat0Go (desc ++ [c]) rest

/-- `pattern.match(line)` for item pattern 1 on a whole stripped line. -/
def itemPat0 (cs : List Char) : Option (List Char × List Char) :=
  itemPat0Go [] cs

/-- `text.split('\n')` on the character list. -/
def splitNl : List Char → List (List Char)
  | [] => [[]]
  | '\n' :: rest => [] :: splitNl rest
  | c :: rest =>
    match splitNl rest with
    | [] => [[c]]
    | l :: ls => (c :: l) :: ls

/-- Python `str.strip()`: drop whitespace from both ends. -/
def stripChars (cs : List Char) : List Char :=
  ((cs.dropWhile Char.isWhitespace).reverse.dropWhile Char.isWhitespace).reverse

/-- `_extract_items` (pattern 1 decides, see the section comment) feeding
`_parse_item_match`, which builds a two-group item with confidence 0.8
(`groups[0].strip()` is the already-stripped line prefix). -/
def extractItems (text : String) : List Validation.ReceiptItem :=
  (splitNl text.toList).filterMap fun line =>
    let line := stripChars line
    if line.length < 5 then none
    else
      match itemPat0 line with
      | some (desc, cap) =>
        some ⟨String.mk (stripChars desc), none, none, some (decOfCapture cap), 4/5⟩
      | none => none

end Extract

end RS

/-- The C6 input text. -/
def c6Text : String := "Subtotal: 10.00\nTax: 0.80\nTotal: 10.80"

/-- The record fragment `extract_receipt_data` builds from `c6Text` for
the fields `_validate_calculations` reads (amounts and items). -/
def c6Record : RS.Validation.ReceiptData :=
  { merchant_name := none, merchant_address := none, merchant_phone := none,
    date := none, time := none,
    items := RS.Extract.extractItems c6Text,
    subtotal := RS.Extract.extractSubtotal c6Text,
    tax_amount := RS.Extract.extractTaxAmount c6Text,
    tip_amount := RS.Extract.extractTipAmount c6Text,
    total_amount := RS.Extract.extractTotalAmount c6Text,
    payment_method := none, card_last_four := none, receipt_number := none,
    confidence_score := 0, raw_text := c6Text }

/-- C6 evaluated on the code: on `"Subtotal: 10.00\nTax: 0.80\nTotal:
10.80"` the extractor sets subtotal = 10.00 and tax = 0.80 as the claim
says, but the unanchored total pattern `(?:total|...)` matches the
`total` *inside* `Subtotal` first, so `total_amount` becomes 10.00 — not
the 10.80 the claim (and the spec's testable property) requires — and the
calculations sub-score is the bare 0.5 base, below the claimed 0.8. -/
theorem claim_C6_total_regex_bug :
    RS.Extract.extractSubtotal c6Text = some ⟨1000, -2⟩ ∧
    RS.Extract.extractTaxAmount c6Text = some ⟨80, -2⟩ ∧
    RS.Extract.extractTotalAmount c6Text = some ⟨1000, -2⟩ ∧
    RS.Extract.extractTotalAmount c6Text ≠ some ⟨1080, -2⟩ ∧
    (RS.Validation.validateCalculations c6Record).1 = 1/2 ∧
    ¬ (8/10 ≤ (RS.Validation.validateCalculations c6Record).1) := by
  have h1 : c6Record.subtotal = some ⟨1000, -2⟩ := by decide
  have h2 : c6Record.tax_amount = some ⟨80, -2⟩ := by decide
  have h3 : c6Record.tip_amount = none := by decide
  have h4 : c6Record.total_amount = some ⟨1000, -2⟩ := by decide
  have h5 : c6Record.items = [⟨"Subtotal:", none, none, some ⟨1000, -2⟩, 4/5⟩,
      ⟨"Tax:", none, none, some ⟨80, -2⟩, 4/5⟩,
      ⟨"Total:", none, none, some ⟨1080, -2⟩, 4/5⟩] := by
    show RS.Extract.extractItems c6Text = _
    rfl
  have hscore : (RS.Validation.validateCalculations c6Record).1 = 1/2 := by
    simp [RS.Validation.validateCalculations, h1, h2, h3, h4, h5,
      RS.Validation.decTruthy, RS.Validation.Dec.val]
    norm_num [abs_of_pos]
  refine ⟨by decide, by decide, h4, by decide, hscore, ?_⟩
  rw [hscore]
  norm_num

namespace RS

/-! ## OCR orchestrator (src/processing/ocr_engine.py)

`_perform_ocr` is embedded as a pure function of the engine-call
outcomes: `Option EngineResult` is `none` when the call raised (the
`except` branches merely log and fall through), `some` when it returned a
result dict.  `processing_time` and the `annotations`/`pages` extras are
diagnostic payload and are omitted from the output record. -/

namespace Ocr

/-- The `{'success', 'text', 'confidence'}` dict a Vision call returns. -/
structure EngineResult where
  success : Bool
  text : String
  confidence : ℚ
deriving DecidableEq

/-- The result dict of `_perform_ocr`. -/
structure OcrOutput where
  success : Bool
  method : String
  text : String
  confidence : ℚ
  error : Option String
deriving DecidableEq

/-- One guarded Vision attempt: available, returned successfully, and
confidence at least the threshold — otherwise fall through. -/
def acceptVision (available : Bool) (res : Option EngineResult) (threshold : ℚ)
    (method : String) : Option OcrOutput :=
  if available then
    match res with
    | some vr =>
      if vr.success ∧ threshold ≤ vr.confidence then
        some ⟨true, method, vr.text, vr.confidence, none⟩
      else none
    | none => none
  else none

/-- `_perform_ocr`: Vision text detection, then Vision document
detection, then Tesseract (accepted regardless of its confidence), else
the fixed failure result. -/
def performOcr (visionAvailable : Bool) (textResult docResult : Option EngineResult)
    (fallbackToTesseract tesseractAvailable : Bool)
    (tessResult : Option (String × ℚ)) (threshold : ℚ) : OcrOutput :=
  match acceptVision visionAvailable textResult threshold "google_vision" with
  | some r => r
  | none =>
    match acceptVision visionAvailable docResult threshold "google_vision_document" with
    | some r => r
    | none =>
      if fallbackToTesseract ∧ tesseractAvailable then
        match tessResult with
        | some tr => ⟨true, "tesseract", tr.1, tr.2, none⟩
        | none => ⟨false, "none", "", 0, some "All OCR methods failed"⟩
      else ⟨false, "none", "", 0, some "All OCR methods failed"⟩

theorem acceptVision_some_iff (available : Bool) (res : Option EngineResult)
    (threshold : ℚ) (method : String) (r : OcrOutput) :
    acceptVision available res threshold method = some r ↔
      available = true ∧ ∃ vr, res = some vr ∧ vr.success = true ∧
        threshold ≤ vr.confidence ∧ r = ⟨true, method, vr.text, vr.confidence, none⟩ := by
  unfold acceptVision
  rcases available with _ | _
  · simp
  · rcases res with _ | vr
    · simp
    · dsimp only
      by_cases hc : vr.success = true ∧ threshold ≤ vr.confidence
      · rw [if_pos hc]
        constructor
        · intro h
          exact ⟨rfl, vr, rfl, hc.1, hc.2, (Option.some_inj.mp h).symm⟩
        · rintro ⟨-, vr', hvr, -, -, rfl⟩
          obtain rfl : vr = vr' := Option.some_inj.mp hvr
          rfl
      · rw [if_neg hc]
        constructor
        · intro h
          exact absurd h (by simp)
        · rintro ⟨-, vr', hvr, hs, hconf, -⟩
          obtain rfl : vr = vr' := Option.some_inj.mp hvr
          exact absurd ⟨hs, hconf⟩ hc

end Ocr

end RS

/-- Counterexample to C5 as stated: with Vision available and returning a
successful attempt of confidence 0.5 (below the 0.8 threshold), document
detection raising, and the Tesseract fallback disabled, `_perform_ocr`
returns the fixed empty failure result — method `none`, empty text,
confidence 0.0 — rather than the best available attempt (text "hello",
confidence 0.5). -/
theorem claim_C5_counterexample :
    RS.Ocr.performOcr true (some ⟨true, "hello", 1/2⟩) none false false none (4/5) =
      ⟨false, "none", "", 0, some "All OCR methods failed"⟩ ∧
    (RS.Ocr.performOcr true (some ⟨true, "hello", 1/2⟩) none false false none
        (4/5)).confidence ≠ 1/2 ∧
    (RS.Ocr.performOcr true (some ⟨true, "hello", 1/2⟩) none false false none
        (4/5)).text ≠ "hello" := by
  have hc : ¬((4 : ℚ)/5 ≤ 1/2) := by norm_num
  have h : RS.Ocr.performOcr true (some ⟨true, "hello", 1/2⟩) none false false none (4/5) =
      ⟨false, "none", "", 0, some "All OCR methods failed"⟩ := by
    norm_num [RS.Ocr.performOcr, RS.Ocr.acceptVision]
  refine ⟨h, ?_, ?_⟩
  · rw [h]
    norm_num
  · rw [h]
    simp

/-- C5 amended: the orchestrator tries cloud text detection, then cloud
document detection, then the local fallback, each later method only when
the previous attempt raised, failed, or fell below `confidence_threshold`;
the first attempt with `confidence ≥ confidence_threshold` is accepted
immediately; the Tesseract fallback, when enabled and available, is
accepted regardless of its confidence; and when nothing is accepted the
function returns a fixed failure result (success=false, method 'none',
empty text, confidence 0.0, error 'All OCR methods failed') — discarding,
not returning, the earlier low-confidence attempts.  No attempt's failure
(modelled as `none`) aborts the chain. -/
theorem claim_C5_fallback_chain (visionAvailable : Bool)
    (textResult docResult : Option RS.Ocr.EngineResult)
    (fallbackToTesseract tesseractAvailable : Bool)
    (tessResult : Option (String × ℚ)) (threshold : ℚ) :
    (∀ r, RS.Ocr.acceptVision visionAvailable textResult threshold "google_vision" =
        some r →
      RS.Ocr.performOcr visionAvailable textResult docResult fallbackToTesseract
        tesseractAvailable tessResult threshold = r) ∧
    (∀ r, RS.Ocr.acceptVision visionAvailable textResult threshold "google_vision" = none →
      RS.Ocr.acceptVision visionAvailable docResult threshold "google_vision_document" =
        some r →
      RS.Ocr.performOcr visionAvailable textResult docResult fallbackToTesseract
        tesseractAvailable tessResult threshold = r) ∧
    (∀ tr, RS.Ocr.acceptVision visionAvailable textResult threshold "google_vision" = none →
      RS.Ocr.acceptVision visionAvailable docResult threshold "google_vision_document" =
        none →
      (fallbackToTesseract ∧ tesseractAvailable) → tessResult = some tr →
      RS.Ocr.performOcr visionAvailable textResult docResult fallbackToTesseract
        tesseractAvailable tessResult threshold = ⟨true, "tesseract", tr.1, tr.2, none⟩) ∧
    (RS.Ocr.acceptVision visionAvailable textResult threshold "google_vision" = none →
      RS.Ocr.acceptVision visionAvailable docResult threshold "google_vision_document" =
        none →
      (¬(fallbackToTesseract ∧ tesseractAvailable) ∨ tessResult = none) →
      RS.Ocr.performOcr visionAvailable textResult docResult fallbackToTesseract
        tesseractAvailable tessResult threshold =
        ⟨false, "none", "", 0, some "All OCR methods failed"⟩) ∧
    (∀ (avail : Bool) (res : Option RS.Ocr.EngineResult) (m : String)
        (r : RS.Ocr.OcrOutput),
      RS.Ocr.acceptVision avail res threshold m = some r ↔
        avail = true ∧ ∃ vr, res = some vr ∧ vr.success = true ∧
          threshold ≤ vr.confidence ∧
          r = ⟨true, m, vr.text, vr.confidence, none⟩) := by
  refine ⟨?_, ?_, ?_, ?_, ?_⟩
  · intro r h1
    unfold RS.Ocr.performOcr
    rw [h1]
  · intro r h1 h2
    unfold RS.Ocr.performOcr
    rw [h1, h2]
  · intro tr h1 h2 hf ht
    unfold RS.Ocr.performOcr
    rw [h1, h2, ht]
    dsimp only
    rw [if_pos hf]
  · intro h1 h2 hfail
    unfold RS.Ocr.performOcr
    rw [h1, h2]
    rcases hfail with hf | ht
    · dsimp only
      rw [if_neg hf]
    · rw [ht]
      dsimp only
      split
      · rfl
      · rfl
  · intro avail res m r
    exact RS.Ocr.acceptVision_some_iff avail res threshold m r

/-- Witness for the amended C5: with Vision unavailable and a
low-confidence Tesseract result, the fallback is accepted as-is. -/
theorem claim_C5_fallback_chain_witness :
    RS.Ocr.performOcr false none none true true (some ("low", 1/10)) (4/5) =
      ⟨true, "tesseract", "low", 1/10, none⟩ :=
  (claim_C5_fallback_chain false none none true true (some ("low", 1/10))
    (4/5)).2.2.1 ("low", 1/10) rfl rfl (by decide) rfl
